import Mathlib

/-!
Verification development for the cursor-economizer extension: a shallow
embedding of its store/sync/lock subsystem (src/src/extension.ts,
src/src/services/fetchLockService.ts, src/src/services/webviewService.ts and
the dbService module) together with theorems about the embedded operations.

Conventions of the embedding:
- JavaScript numbers that the code only stores, copies and compares (costs,
  token counters, ids) are modelled as Int; no claim below depends on
  floating-point arithmetic on them.
- SQL tables are lists of row structures, in insertion order; the
  AUTOINCREMENT id column is not part of the row (no operation reads it).
- JSON.stringify of a normalized record is modelled by an explicit
  deterministic string builder with the same field order.
- The sql.js in-memory database plus the on-disk file plus the
  db-updated.json notification file are modelled by the Store structure;
  dbService.reload copies disk to memory, dbService.persist copies memory to
  disk and counts a touch of the notification file.
-/

namespace CursorEconomizer

/-- Token usage sub-object of a normalized API-A event (src/types/usageEvent.ts,
interface ApiUsageEvent.tokenUsage; every field is optional in the interface). -/
structure TokenUsage where
  inputTokens : Option Int
  outputTokens : Option Int
  cacheWriteTokens : Option Int
  cacheReadTokens : Option Int
  totalCents : Option Int
deriving DecidableEq, Repr

/-- Normalized API-A usage event (src/types/usageEvent.ts, interface
ApiUsageEvent). Optional fields mirror the question-mark fields of the
interface. -/
structure ApiUsageEvent where
  timestamp : String
  model : String
  kind : String
  customSubscriptionName : Option String
  maxMode : Option Bool
  requestsCosts : Option Int
  usageBasedCosts : Int
  isTokenBasedCall : Bool
  tokenUsage : TokenUsage
  owningUser : String
  owningTeam : String
  cursorTokenFee : Int
  isChargeable : Bool
  isHeadless : Bool
deriving DecidableEq, Repr

/-- Row of the usage_events table (schema SCHEMA_USAGE_EVENTS in dbService;
the AUTOINCREMENT id column is omitted, note defaults to the empty string). -/
structure EventRow where
  timestamp : String
  model : String
  kind : String
  max_mode : Option Int
  requests_costs : Option Int
  usage_based_costs : Int
  is_token_based_call : Int
  input_tokens : Int
  output_tokens : Int
  cache_write_tokens : Int
  cache_read_tokens : Int
  total_cents : Int
  owning_user : String
  owning_team : String
  cursor_token_fee : Int
  is_chargeable : Int
  is_headless : Int
  raw_json : String
  fetched_at : String
  note : String
deriving DecidableEq, Repr

/-- Helper for the JSON builders: a JSON string literal (escaping of special
characters inside the payload is not modelled; the code never inspects
raw_json again). -/
def jsonStr (s : String) : String := "\"" ++ s ++ "\""

/-- Helper for the JSON builders: a JSON boolean. -/
def jsonBool (b : Bool) : String := if b then "true" else "false"

/-- Helper for the JSON builders: a JSON number or null from an optional Int. -/
def jsonOptInt : Option Int → String
  | none => "null"
  | some n => toString n

/-- Deterministic model of JSON.stringify(event) as used for the raw_json
column in saveEventsToDb (extension.ts line 1716): the fields of the
normalized event in interface order; absent optional fields are omitted the
way JSON.stringify omits undefined properties. -/
def encodeEventJson (e : ApiUsageEvent) : String :=
  "\x7b" ++
  "\"timestamp\":" ++ jsonStr e.timestamp ++
  ",\"model\":" ++ jsonStr e.model ++
  ",\"kind\":" ++ jsonStr e.kind ++
  (match e.customSubscriptionName with
    | none => ""
    | some s => ",\"customSubscriptionName\":" ++ jsonStr s) ++
  (match e.maxMode with
    | none => ""
    | some b => ",\"maxMode\":" ++ jsonBool b) ++
  (match e.requestsCosts with
    | none => ""
    | some n => ",\"requestsCosts\":" ++ toString n) ++
  ",\"usageBasedCosts\":" ++ toString e.usageBasedCosts ++
  ",\"isTokenBasedCall\":" ++ jsonBool e.isTokenBasedCall ++
  ",\"tokenUsage\":\x7b\"inputTokens\":" ++ jsonOptInt e.tokenUsage.inputTokens ++
  ",\"outputTokens\":" ++ jsonOptInt e.tokenUsage.outputTokens ++
  ",\"cacheWriteTokens\":" ++ jsonOptInt e.tokenUsage.cacheWriteTokens ++
  ",\"cacheReadTokens\":" ++ jsonOptInt e.tokenUsage.cacheReadTokens ++
  ",\"totalCents\":" ++ jsonOptInt e.tokenUsage.totalCents ++ "\x7d" ++
  ",\"owningUser\":" ++ jsonStr e.owningUser ++
  ",\"owningTeam\":" ++ jsonStr e.owningTeam ++
  ",\"cursorTokenFee\":" ++ toString e.cursorTokenFee ++
  ",\"isChargeable\":" ++ jsonBool e.isChargeable ++
  ",\"isHeadless\":" ++ jsonBool e.isHeadless ++
  "\x7d"

/-- Natural key of an event, the UNIQUE(timestamp, model, owning_user)
triple of the schema. -/
def eventKey (e : ApiUsageEvent) : String × String × String :=
  (e.timestamp, e.model, e.owningUser)

/-- Natural key of a stored row. -/
def rowKey (r : EventRow) : String × String × String :=
  (r.timestamp, r.model, r.owning_user)

/-- Row built by the INSERT OR IGNORE statement of saveEventsToDb
(extension.ts lines 1669-1683 and 1715-1749): parameter coercions as in the
code (maxMode to 1/0 or null, token counters defaulted to 0, booleans to
1/0), note left at its schema default of the empty string. -/
def rowOfEvent (e : ApiUsageEvent) (fetchedAt : String) : EventRow where
  timestamp := e.timestamp
  model := e.model
  kind := e.kind
  max_mode := match e.maxMode with
    | none => none
    | some b => some (if b then 1 else 0)
  requests_costs := e.requestsCosts
  usage_based_costs := e.usageBasedCosts
  is_token_based_call := if e.isTokenBasedCall then 1 else 0
  input_tokens := (e.tokenUsage.inputTokens).getD 0
  output_tokens := (e.tokenUsage.outputTokens).getD 0
  cache_write_tokens := (e.tokenUsage.cacheWriteTokens).getD 0
  cache_read_tokens := (e.tokenUsage.cacheReadTokens).getD 0
  total_cents := (e.tokenUsage.totalCents).getD 0
  owning_user := e.owningUser
  owning_team := e.owningTeam
  cursor_token_fee := e.cursorTokenFee
  is_chargeable := if e.isChargeable then 1 else 0
  is_headless := if e.isHeadless then 1 else 0
  raw_json := encodeEventJson e
  fetched_at := fetchedAt
  note := ""

/-- Effect of the UPDATE statement of saveEventsToDb (extension.ts lines
1686-1704 and 1752-1772) on one matching row: every column except the
natural-key columns, owning_team and note is set from the event. -/
def applyEventUpdate (e : ApiUsageEvent) (fetchedAt : String) (r : EventRow) : EventRow :=
  { r with
    kind := e.kind
    max_mode := match e.maxMode with
      | none => none
      | some b => some (if b then 1 else 0)
    requests_costs := e.requestsCosts
    usage_based_costs := e.usageBasedCosts
    is_token_based_call := if e.isTokenBasedCall then 1 else 0
    input_tokens := (e.tokenUsage.inputTokens).getD 0
    output_tokens := (e.tokenUsage.outputTokens).getD 0
    cache_write_tokens := (e.tokenUsage.cacheWriteTokens).getD 0
    cache_read_tokens := (e.tokenUsage.cacheReadTokens).getD 0
    total_cents := (e.tokenUsage.totalCents).getD 0
    cursor_token_fee := e.cursorTokenFee
    is_chargeable := if e.isChargeable then 1 else 0
    is_headless := if e.isHeadless then 1 else 0
    raw_json := encodeEventJson e
    fetched_at := fetchedAt }

/-- Whether the table already holds a row with the given natural key. -/
def hasEventKey (t : List EventRow) (k : String × String × String) : Bool :=
  t.any (fun r => rowKey r = k)

/-- INSERT OR IGNORE INTO usage_events: appends the new row unless a row with
the same UNIQUE(timestamp, model, owning_user) key exists (then the insert is
ignored). -/
def insertOrIgnoreEvent (t : List EventRow) (e : ApiUsageEvent) (fetchedAt : String) :
    List EventRow :=
  if hasEventKey t (eventKey e) then t else t ++ [rowOfEvent e fetchedAt]

/-- UPDATE usage_events SET ... WHERE timestamp = ? AND model = ? AND
owning_user = ?: rewrites every row whose natural key matches the event. -/
def updateEventRows (t : List EventRow) (e : ApiUsageEvent) (fetchedAt : String) :
    List EventRow :=
  t.map (fun r => if rowKey r = eventKey e then applyEventUpdate e fetchedAt r else r)

/-- One iteration of the per-event loop of saveEventsToDb: Step 1 INSERT OR
IGNORE, then Step 2 UPDATE. -/
def saveEventsStep (fetchedAt : String) (t : List EventRow) (e : ApiUsageEvent) :
    List EventRow :=
  updateEventRows (insertOrIgnoreEvent t e fetchedAt) e fetchedAt

/-- Effect of apiService.saveEventsToDb (extension.ts lines 1661-1791) on the
usage_events table: early return on the empty batch, else the insert/update
pair for each event in order. fetchedAt is the single ingestion timestamp
computed once at the top of the function. -/
def saveEventsToDb (t : List EventRow) (events : List ApiUsageEvent) (fetchedAt : String) :
    List EventRow :=
  if events.isEmpty then t else events.foldl (saveEventsStep fetchedAt) t

/-- Effect of webviewService.handleUpdateMemo (webviewService.ts lines
196-200) on the usage_events table: UPDATE usage_events SET note = ? WHERE
timestamp = ? AND model = ? AND owning_user = ?. -/
def updateNoteTable (t : List EventRow) (ts mdl user v : String) : List EventRow :=
  t.map (fun r => if rowKey r = (ts, mdl, user) then { r with note := v } else r)

/-- Effect of dbService.deleteOlderThan on the usage_events table (dbService
lines 332-348): DELETE FROM usage_events WHERE fetched_at < threshold keeps
exactly the rows whose fetched_at is not below the threshold (ISO-8601
strings compare as text). -/
def deleteEventsOlderThan (t : List EventRow) (threshold : String) : List EventRow :=
  t.filter (fun r => ¬ r.fetched_at < threshold)

/-- Effect of the usage_based_costs value migration run by
dbService.initialize (migrateUsageBasedCosts): rewrites only the
usage_based_costs column of existing rows (modelled abstractly by an
arbitrary per-row cost rewrite, which is all the uniqueness invariant
needs; the real migration parses leftover dollar strings). -/
def migrateUsageBasedCostsTable (f : EventRow → Int) (t : List EventRow) : List EventRow :=
  t.map (fun r => { r with usage_based_costs := f r })

/-! ### Summary, identity and team records -/

/-- Plan breakdown sub-object of the normalized API-B summary
(src/types/usageEvent.ts, ApiUsageSummary.individualUsage.plan.breakdown). -/
structure PlanBreakdown where
  included : Int
  bonus : Int
  total : Int
deriving DecidableEq, Repr

/-- Plan sub-object of the normalized API-B summary. -/
structure PlanUsage where
  enabled : Bool
  used : Int
  limit : Int
  remaining : Int
  breakdown : PlanBreakdown
  autoPercentUsed : Int
  apiPercentUsed : Int
  totalPercentUsed : Int
deriving DecidableEq, Repr

/-- On-demand sub-object of the normalized API-B summary (null limit means
unlimited). -/
structure OnDemandUsage where
  enabled : Bool
  used : Int
  limit : Option Int
  remaining : Option Int
deriving DecidableEq, Repr

/-- Individual usage sub-object of the normalized API-B summary. -/
structure IndividualUsage where
  plan : PlanUsage
  onDemand : OnDemandUsage
deriving DecidableEq, Repr

/-- Team usage sub-object of the normalized API-B summary. -/
structure TeamUsage where
  onDemand : OnDemandUsage
deriving DecidableEq, Repr

/-- Normalized API-B usage summary (src/types/usageEvent.ts,
interface ApiUsageSummary). -/
structure ApiUsageSummary where
  billingCycleStart : String
  billingCycleEnd : String
  membershipType : String
  limitType : String
  isUnlimited : Bool
  autoModelSelectedDisplayMessage : String
  namedModelSelectedDisplayMessage : String
  individualUsage : IndividualUsage
  teamUsage : TeamUsage
deriving DecidableEq, Repr

/-- Normalized API-C identity (src/types/usageEvent.ts, interface ApiAuthMe). -/
structure ApiAuthMe where
  email : String
  email_verified : Bool
  name : String
  sub : String
  created_at : String
  updated_at : String
  picture : String
  id : Int
deriving DecidableEq, Repr

/-- Member entry of the normalized API-D team detail (interface
ApiTeamMember). -/
structure ApiTeamMember where
  id : Int
  name : Option String
  role : String
  email : String
deriving DecidableEq, Repr

/-- Normalized API-D response (interface ApiTeamResponse). -/
structure ApiTeamResponse where
  teamMembers : List ApiTeamMember
  userId : Int
deriving DecidableEq, Repr

/-- One team of the normalized API-E response (interface ApiTeamDetail). -/
structure ApiTeamDetail where
  name : String
  id : Int
  role : String
  seats : Int
  hasBilling : Bool
  requestQuotaPerSeat : Int
  privacyModeForced : Bool
  allowSso : Bool
  adminOnlyUsagePricing : Bool
  subscriptionStatus : String
  privacyModeMigrationOptedOut : Bool
  membershipType : String
  billingCycleStart : String
  billingCycleEnd : String
  individualSpendLimitsBlocked : Bool
  customerBalanceCents : String
deriving DecidableEq, Repr

/-- Normalized API-E response (interface ApiTeamsResponse). -/
structure ApiTeamsResponse where
  teams : List ApiTeamDetail
deriving DecidableEq, Repr

/-- Row of the usage_summary table (SCHEMA_USAGE_SUMMARY; AUTOINCREMENT id
omitted). -/
structure SummaryRow where
  billing_cycle_start : String
  billing_cycle_end : String
  membership_type : String
  limit_type : String
  is_unlimited : Int
  auto_model_message : Option String
  named_model_message : Option String
  plan_enabled : Int
  plan_used : Int
  plan_limit : Int
  plan_remaining : Int
  plan_included : Int
  plan_bonus : Int
  plan_total : Int
  plan_auto_pct : Int
  plan_api_pct : Int
  plan_total_pct : Int
  ondemand_enabled : Int
  ondemand_used : Int
  ondemand_limit : Option Int
  ondemand_remaining : Option Int
  team_ondemand_enabled : Int
  team_ondemand_used : Int
  team_ondemand_limit : Option Int
  team_ondemand_remaining : Option Int
  raw_json : String
  fetched_at : String
deriving DecidableEq, Repr

/-- Row of the auth_me table (SCHEMA_AUTH_ME). -/
structure AuthMeRow where
  id : Int
  email : String
  email_verified : Int
  name : String
  sub : String
  created_at : String
  updated_at : String
  picture : String
  raw_json : String
  fetched_at : String
deriving DecidableEq, Repr

/-- Row of the team_members table (SCHEMA_TEAM_MEMBERS plus the migrated
team_id column). -/
structure TeamMemberRow where
  id : Int
  name : String
  role : String
  email : String
  user_id : Int
  team_id : Int
  raw_json : String
  fetched_at : String
deriving DecidableEq, Repr

/-- Row of the teams table (SCHEMA_TEAMS). -/
structure TeamRow where
  id : Int
  name : String
  role : String
  seats : Int
  has_billing : Int
  request_quota_per_seat : Int
  privacy_mode_forced : Int
  allow_sso : Int
  admin_only_usage_pricing : Int
  subscription_status : String
  privacy_mode_migration_opted_out : Int
  membership_type : String
  billing_cycle_start : String
  billing_cycle_end : String
  individual_spend_limits_blocked : Int
  customer_balance_cents : String
  raw_json : String
  fetched_at : String
deriving DecidableEq, Repr

/-- Deterministic model of JSON.stringify(summary), used for the raw_json
column of usage_summary; only determinism matters downstream, so the builder
lists the scalar fields in interface order. -/
def encodeSummaryJson (s : ApiUsageSummary) : String :=
  "\x7b" ++
  "\"billingCycleStart\":" ++ jsonStr s.billingCycleStart ++
  ",\"billingCycleEnd\":" ++ jsonStr s.billingCycleEnd ++
  ",\"membershipType\":" ++ jsonStr s.membershipType ++
  ",\"limitType\":" ++ jsonStr s.limitType ++
  ",\"isUnlimited\":" ++ jsonBool s.isUnlimited ++
  ",\"autoModelSelectedDisplayMessage\":" ++ jsonStr s.autoModelSelectedDisplayMessage ++
  ",\"namedModelSelectedDisplayMessage\":" ++ jsonStr s.namedModelSelectedDisplayMessage ++
  ",\"individualUsage\":\x7b\"plan\":\x7b\"enabled\":" ++ jsonBool s.individualUsage.plan.enabled ++
  ",\"used\":" ++ toString s.individualUsage.plan.used ++
  ",\"limit\":" ++ toString s.individualUsage.plan.limit ++
  ",\"remaining\":" ++ toString s.individualUsage.plan.remaining ++
  ",\"breakdown\":\x7b\"included\":" ++ toString s.individualUsage.plan.breakdown.included ++
  ",\"bonus\":" ++ toString s.individualUsage.plan.breakdown.bonus ++
  ",\"total\":" ++ toString s.individualUsage.plan.breakdown.total ++ "\x7d" ++
  ",\"autoPercentUsed\":" ++ toString s.individualUsage.plan.autoPercentUsed ++
  ",\"apiPercentUsed\":" ++ toString s.individualUsage.plan.apiPercentUsed ++
  ",\"totalPercentUsed\":" ++ toString s.individualUsage.plan.totalPercentUsed ++ "\x7d" ++
  ",\"onDemand\":\x7b\"enabled\":" ++ jsonBool s.individualUsage.onDemand.enabled ++
  ",\"used\":" ++ toString s.individualUsage.onDemand.used ++
  ",\"limit\":" ++ jsonOptInt s.individualUsage.onDemand.limit ++
  ",\"remaining\":" ++ jsonOptInt s.individualUsage.onDemand.remaining ++ "\x7d\x7d" ++
  ",\"teamUsage\":\x7b\"onDemand\":\x7b\"enabled\":" ++ jsonBool s.teamUsage.onDemand.enabled ++
  ",\"used\":" ++ toString s.teamUsage.onDemand.used ++
  ",\"limit\":" ++ jsonOptInt s.teamUsage.onDemand.limit ++
  ",\"remaining\":" ++ jsonOptInt s.teamUsage.onDemand.remaining ++ "\x7d\x7d" ++
  "\x7d"

/-- Deterministic model of JSON.stringify(me) for auth_me.raw_json. -/
def encodeAuthMeJson (m : ApiAuthMe) : String :=
  "\x7b" ++
  "\"email\":" ++ jsonStr m.email ++
  ",\"email_verified\":" ++ jsonBool m.email_verified ++
  ",\"name\":" ++ jsonStr m.name ++
  ",\"sub\":" ++ jsonStr m.sub ++
  ",\"created_at\":" ++ jsonStr m.created_at ++
  ",\"updated_at\":" ++ jsonStr m.updated_at ++
  ",\"picture\":" ++ jsonStr m.picture ++
  ",\"id\":" ++ toString m.id ++
  "\x7d"

/-- Deterministic model of JSON.stringify(team) for team_members.raw_json. -/
def encodeTeamJson (t : ApiTeamResponse) : String :=
  "\x7b\"teamMembers\":[" ++
  String.intercalate ","
    (t.teamMembers.map (fun m =>
      "\x7b\"id\":" ++ toString m.id ++
      (match m.name with
        | none => ""
        | some n => ",\"name\":" ++ jsonStr n) ++
      ",\"role\":" ++ jsonStr m.role ++
      ",\"email\":" ++ jsonStr m.email ++ "\x7d")) ++
  "],\"userId\":" ++ toString t.userId ++ "\x7d"

/-- Deterministic model of JSON.stringify(teams) for teams.raw_json. -/
def encodeTeamsJson (t : ApiTeamsResponse) : String :=
  "\x7b\"teams\":[" ++
  String.intercalate ","
    (t.teams.map (fun d =>
      "\x7b\"name\":" ++ jsonStr d.name ++
      ",\"id\":" ++ toString d.id ++
      ",\"role\":" ++ jsonStr d.role ++
      ",\"seats\":" ++ toString d.seats ++
      ",\"hasBilling\":" ++ jsonBool d.hasBilling ++
      ",\"subscriptionStatus\":" ++ jsonStr d.subscriptionStatus ++
      ",\"membershipType\":" ++ jsonStr d.membershipType ++
      ",\"customerBalanceCents\":" ++ jsonStr d.customerBalanceCents ++ "\x7d")) ++
  "]\x7d"

/-! ### The store: in-memory database, on-disk file, notification file -/

/-- The five tables of the embedded database. -/
structure Tables where
  usage_events : List EventRow
  usage_summary : List SummaryRow
  auth_me : List AuthMeRow
  team_members : List TeamMemberRow
  teams : List TeamRow
deriving DecidableEq, Repr

/-- Cross-process store state: the in-memory sql.js database of this window,
the shared usage.db file on disk, and a count of touches of the
db-updated.json notification file. -/
structure Store where
  mem : Tables
  disk : Tables
  notifTouches : Nat
deriving DecidableEq, Repr

/-- dbService.reload (dbService lines 279-295): discard the in-memory
database and re-read the on-disk file. -/
def reloadStore (s : Store) : Store := { s with mem := s.disk }

/-- dbService.persist (dbService lines 252-273): export the in-memory
database to the on-disk file, then touch db-updated.json. -/
def persistStore (s : Store) : Store :=
  { s with disk := s.mem, notifTouches := s.notifTouches + 1 }

/-! ### saveEventsToDb with the transaction and a failure oracle -/

/-- The statement sequence of the saveEventsToDb transaction with a failure
oracle: each event contributes statement indices idx (INSERT OR IGNORE) and
idx+1 (UPDATE); failAt names the zero-based statement index at which db.run
throws, none meaning every statement succeeds. Returns the table reached at
COMMIT time, or the error of the failing statement. -/
def txGo (fetchedAt : String) (failAt : Option Nat) :
    List ApiUsageEvent → List EventRow → Nat → Except String (List EventRow)
  | [], t, _ => .ok t
  | e :: rest, t, idx =>
    if failAt = some idx then .error "INSERT OR IGNORE failed"
    else
      let t1 := insertOrIgnoreEvent t e fetchedAt
      if failAt = some (idx + 1) then .error "UPDATE failed"
      else txGo fetchedAt failAt rest (updateEventRows t1 e fetchedAt) (idx + 2)

/-- Full run of apiService.saveEventsToDb (extension.ts lines 1661-1791)
against the store: early return on the empty batch; otherwise
dbService.reload, BEGIN TRANSACTION, the per-event statement pairs, then
COMMIT and dbService.persist on success, or ROLLBACK to the state at BEGIN
and a re-thrown error on any statement failure (persist is never reached on
the failure path). The first component is the error surfaced to the caller. -/
def saveEventsToDbRun (st : Store) (events : List ApiUsageEvent) (fetchedAt : String)
    (failAt : Option Nat) : Option String × Store :=
  if events.isEmpty then (none, st)
  else
    let st1 := reloadStore st
    match txGo fetchedAt failAt events st1.mem.usage_events 0 with
    | .ok t2 => (none, persistStore { st1 with mem := { st1.mem with usage_events := t2 } })
    | .error msg => (some msg, st1)

/-! ### Store-level save operations used by the sync branches -/

/-- Store-level apiService.saveEventsToDb without a statement failure
(reload, transaction, persist). -/
def saveEventsToDbStore (st : Store) (events : List ApiUsageEvent) (fetchedAt : String) :
    Store :=
  if events.isEmpty then st
  else
    let st1 := reloadStore st
    persistStore
      { st1 with
        mem := { st1.mem with
          usage_events := saveEventsToDb st1.mem.usage_events events fetchedAt } }

/-- Row inserted by apiService.saveSummaryToDb (extension.ts lines
1857-1925): parameter coercions as in the code. -/
def summaryRowOf (s : ApiUsageSummary) (fetchedAt : String) : SummaryRow where
  billing_cycle_start := s.billingCycleStart
  billing_cycle_end := s.billingCycleEnd
  membership_type := s.membershipType
  limit_type := s.limitType
  is_unlimited := if s.isUnlimited then 1 else 0
  auto_model_message := some s.autoModelSelectedDisplayMessage
  named_model_message := some s.namedModelSelectedDisplayMessage
  plan_enabled := if s.individualUsage.plan.enabled then 1 else 0
  plan_used := s.individualUsage.plan.used
  plan_limit := s.individualUsage.plan.limit
  plan_remaining := s.individualUsage.plan.remaining
  plan_included := s.individualUsage.plan.breakdown.included
  plan_bonus := s.individualUsage.plan.breakdown.bonus
  plan_total := s.individualUsage.plan.breakdown.total
  plan_auto_pct := s.individualUsage.plan.autoPercentUsed
  plan_api_pct := s.individualUsage.plan.apiPercentUsed
  plan_total_pct := s.individualUsage.plan.totalPercentUsed
  ondemand_enabled := if s.individualUsage.onDemand.enabled then 1 else 0
  ondemand_used := s.individualUsage.onDemand.used
  ondemand_limit := s.individualUsage.onDemand.limit
  ondemand_remaining := s.individualUsage.onDemand.remaining
  team_ondemand_enabled := if s.teamUsage.onDemand.enabled then 1 else 0
  team_ondemand_used := s.teamUsage.onDemand.used
  team_ondemand_limit := s.teamUsage.onDemand.limit
  team_ondemand_remaining := s.teamUsage.onDemand.remaining
  raw_json := encodeSummaryJson s
  fetched_at := fetchedAt

/-- apiService.saveSummaryToDb: reload, append-only INSERT into
usage_summary, persist. -/
def saveSummaryToDbStore (st : Store) (s : ApiUsageSummary) (fetchedAt : String) : Store :=
  let st1 := reloadStore st
  persistStore
    { st1 with
      mem := { st1.mem with
        usage_summary := st1.mem.usage_summary ++ [summaryRowOf s fetchedAt] } }

/-- Row inserted by apiService.saveAuthMeToDb (extension.ts lines
1960-1987). -/
def authMeRowOf (m : ApiAuthMe) (fetchedAt : String) : AuthMeRow where
  id := m.id
  email := m.email
  email_verified := if m.email_verified then 1 else 0
  name := m.name
  sub := m.sub
  created_at := m.created_at
  updated_at := m.updated_at
  picture := m.picture
  raw_json := encodeAuthMeJson m
  fetched_at := fetchedAt

/-- apiService.saveAuthMeToDb: reload, DELETE FROM auth_me then INSERT the
single fresh row, persist. -/
def saveAuthMeToDbStore (st : Store) (m : ApiAuthMe) (fetchedAt : String) : Store :=
  let st1 := reloadStore st
  persistStore
    { st1 with mem := { st1.mem with auth_me := [authMeRowOf m fetchedAt] } }

/-- Row inserted per member by apiService.saveTeamToDb (extension.ts lines
2026-2057); name defaults to the empty string when absent. -/
def teamMemberRowOf (team : ApiTeamResponse) (teamId : Int) (fetchedAt : String)
    (m : ApiTeamMember) : TeamMemberRow where
  id := m.id
  name := m.name.getD ""
  role := m.role
  email := m.email
  user_id := team.userId
  team_id := teamId
  raw_json := encodeTeamJson team
  fetched_at := fetchedAt

/-- apiService.saveTeamToDb: reload, DELETE FROM team_members then INSERT
every member of the fetched team detail, persist. -/
def saveTeamToDbStore (st : Store) (team : ApiTeamResponse) (teamId : Int)
    (fetchedAt : String) : Store :=
  let st1 := reloadStore st
  persistStore
    { st1 with
      mem := { st1.mem with
        team_members := team.teamMembers.map (teamMemberRowOf team teamId fetchedAt) } }

/-- Row inserted per team by apiService.saveTeamsToDb (extension.ts lines
2092-2138). -/
def teamRowOf (resp : ApiTeamsResponse) (fetchedAt : String) (d : ApiTeamDetail) :
    TeamRow where
  id := d.id
  name := d.name
  role := d.role
  seats := d.seats
  has_billing := if d.hasBilling then 1 else 0
  request_quota_per_seat := d.requestQuotaPerSeat
  privacy_mode_forced := if d.privacyModeForced then 1 else 0
  allow_sso := if d.allowSso then 1 else 0
  admin_only_usage_pricing := if d.adminOnlyUsagePricing then 1 else 0
  subscription_status := d.subscriptionStatus
  privacy_mode_migration_opted_out := if d.privacyModeMigrationOptedOut then 1 else 0
  membership_type := d.membershipType
  billing_cycle_start := d.billingCycleStart
  billing_cycle_end := d.billingCycleEnd
  individual_spend_limits_blocked := if d.individualSpendLimitsBlocked then 1 else 0
  customer_balance_cents := d.customerBalanceCents
  raw_json := encodeTeamsJson resp
  fetched_at := fetchedAt

/-- apiService.saveTeamsToDb: reload, DELETE FROM teams then INSERT every
fetched team, persist. -/
def saveTeamsToDbStore (st : Store) (resp : ApiTeamsResponse) (fetchedAt : String) : Store :=
  let st1 := reloadStore st
  persistStore
    { st1 with mem := { st1.mem with teams := resp.teams.map (teamRowOf resp fetchedAt) } }

/-- Zero-teams purge executed inline by both refreshData branches
(extension.ts lines 282-295 and 530-541): dbService.reload, DELETE FROM
team_members, dbService.persist. -/
def purgeTeamMembers (st : Store) : Store :=
  let st1 := reloadStore st
  persistStore { st1 with mem := { st1.mem with team_members := [] } }

/-! ### Error classification and the retry decorator -/

/-- Failure taxonomy of the apiService (extension.ts lines 1008-1057 plus
plain Node network errors carrying an errno code, and any other thrown
value). -/
inductive ApiError where
  | tokenNotConfigured : ApiError
  | unauthorized (statusCode : Nat) : ApiError
  | timeout : ApiError
  | http (statusCode : Nat) (body : String) : ApiError
  | parse (detail : String) : ApiError
  | network (code : String) : ApiError
  | other (message : String) : ApiError
deriving DecidableEq, Repr

/-- Transient errno codes listed in isRetryable (extension.ts lines
1093-1100). -/
def retryableCodes : List String :=
  ["ECONNRESET", "ECONNREFUSED", "ENOTFOUND", "ETIMEDOUT", "EPIPE", "ECONNABORTED"]

/-- isRetryable (extension.ts lines 1080-1106): ApiTimeoutError is
retryable; ApiHttpError is retryable for 408, 429 and 500-599; a network
error whose errno code is in the transient list is retryable; every other
error (TokenNotConfiguredError, ApiUnauthorizedError, ApiParseError, an
ApiHttpError with another status, or any other thrown value) is not. -/
def isRetryable : ApiError → Bool
  | .timeout => true
  | .http sc _ => sc == 408 || sc == 429 || (500 ≤ sc && sc ≤ 599)
  | .network code => retryableCodes.contains code
  | .tokenNotConfigured => false
  | .unauthorized _ => false
  | .parse _ => false
  | .other _ => false

/-- MAX_RETRIES (extension.ts line 1003): first attempt plus at most two
retries. -/
def MAX_RETRIES : Nat := 2

/-- RETRY_DELAYS (extension.ts line 1006). -/
def RETRY_DELAYS : List Nat := [300, 900]

/-- Backoff delay before the retry that follows attempt number attempt:
RETRY_DELAYS[attempt], with the last entry as a fallback (extension.ts
line 1140). -/
def retryDelayAt (attempt : Nat) : Nat :=
  (RETRY_DELAYS.get? attempt).getD ((RETRY_DELAYS.get? (RETRY_DELAYS.length - 1)).getD 0)

/-- Observable outcome of one withRetry run: the returned value or thrown
error, the number of invocations of the wrapped function, and the backoff
delays slept. -/
structure RetryResult (α : Type) where
  result : Except ApiError α
  calls : Nat
  delays : List Nat
deriving Repr

instance [DecidableEq ε] [DecidableEq α] : DecidableEq (Except ε α) := fun a b =>
  match a, b with
  | .ok x, .ok y => decidable_of_iff (x = y) (by simp)
  | .ok _, .error _ => isFalse (fun h => by cases h)
  | .error _, .ok _ => isFalse (fun h => by cases h)
  | .error x, .error y => decidable_of_iff (x = y) (by simp)

instance [DecidableEq α] : DecidableEq (RetryResult α) := fun a b => by
  cases a; cases b
  rw [RetryResult.mk.injEq]
  exact inferInstance

/-- Loop body of withRetry (extension.ts lines 1120-1148), indexed by the
current attempt number and the number of attempts still allowed after it
(maxRetries - attempt): a success returns at once; a failure is re-thrown
immediately when not retryable, re-thrown when the attempt budget is
exhausted, and otherwise retried after the backoff delay for this attempt.
The wrapped async operation is modelled as a function from the attempt
number to its outcome. -/
def withRetryFrom (f : Nat → Except ApiError α) (attempt : Nat) :
    Nat → RetryResult α
  | 0 =>
    match f attempt with
    | .ok v => ⟨.ok v, 1, []⟩
    | .error e => ⟨.error e, 1, []⟩
  | remaining + 1 =>
    match f attempt with
    | .ok v => ⟨.ok v, 1, []⟩
    | .error e =>
      if isRetryable e then
        let rest := withRetryFrom f (attempt + 1) remaining
        ⟨rest.result, rest.calls + 1, retryDelayAt attempt :: rest.delays⟩
      else ⟨.error e, 1, []⟩

/-- withRetry fn maxRetries (extension.ts lines 1120-1148). -/
def withRetry (f : Nat → Except ApiError α) (maxRetries : Nat) : RetryResult α :=
  withRetryFrom f 0 maxRetries

/-! ### The cross-window fetch lock -/

/-- What reading the lock file yields inside acquireLock and isLocked:
the file may be absent, its content may fail JSON.parse, the parsed
startedAt may be an invalid date (NaN), or it parses to a date whose epoch
milliseconds are startedAtMs. -/
inductive LockFileRead where
  | absent : LockFileRead
  | unparseable : LockFileRead
  | invalidDate : LockFileRead
  | validDate (startedAtMs : Int) : LockFileRead
deriving DecidableEq, Repr

/-- STALE_LOCK_THRESHOLD_SEC (fetchLockService.ts line 14). -/
def STALE_LOCK_THRESHOLD_SEC : Int := 120

/-- fetchLockService.acquireLock (fetchLockService.ts lines 65-99). The
elapsed-seconds comparison (nowMs - startedAtMs) / 1000 <= 120 is expressed
without the division as nowMs - startedAtMs <= 120 * 1000, which is
equivalent for integer millisecond inputs. Returns whether the lock was
acquired and, when a write happened, the content written to the file
(startedAt = now, pid = the current process); none means the existing file
was left untouched. -/
def acquireLock (read : LockFileRead) (nowMs pid : Int) : Bool × Option (Int × Int) :=
  match read with
  | .validDate startedAtMs =>
    if nowMs - startedAtMs ≤ STALE_LOCK_THRESHOLD_SEC * 1000 then
      (false, none)
    else
      (true, some (nowMs, pid))
  | .invalidDate => (true, some (nowMs, pid))
  | .unparseable => (true, some (nowMs, pid))
  | .absent => (true, some (nowMs, pid))

/-- fetchLockService.isLocked (fetchLockService.ts lines 125-145). -/
def isLocked (read : LockFileRead) (nowMs : Int) : Bool :=
  match read with
  | .absent => false
  | .unparseable => false
  | .invalidDate => false
  | .validDate startedAtMs => nowMs - startedAtMs ≤ STALE_LOCK_THRESHOLD_SEC * 1000

/-- fetchLockService.releaseLock (fetchLockService.ts lines 105-115):
fs.unlinkSync on the lock file path, with ENOENT (file already gone)
swallowed. The function never reads the file, so the resulting file-system
state is independent of the stored startedAt and pid; abnormal unlink
failures other than ENOENT (which would re-throw) are not modelled. -/
def releaseLock (lockFile : Option (Int × Int)) : Option (Int × Int) :=
  match lockFile with
  | some _ => none
  | none => none

/-- Lock-file effect of deactivate (extension.ts lines 940-953): it calls
fetchLockService.releaseLock() unconditionally, whether or not this process
acquired the lock. -/
def deactivateLockEffect (lockFile : Option (Int × Int)) : Option (Int × Int) :=
  releaseLock lockFile

/-! ### Paginated events fetching -/

/-- PAGE_SIZE (extension.ts line 991). -/
def PAGE_SIZE : Nat := 100

/-- MAX_PAGES (extension.ts line 994). -/
def MAX_PAGES : Nat := 100

/-- The shared while loop of fetchEventsRemainingPages, fetchAllEvents and
fetchDeltaEvents (extension.ts lines 1549-1560, 1587-1598, 1629-1640): while
page <= MAX_PAGES, request the page, append its items, stop after the first
page whose item count is strictly below PAGE_SIZE, else advance to the next
page. The server is modelled as a function from the page number to the item
list it returns; the fuel argument counts the loop iterations still
permitted by the page <= MAX_PAGES bound and makes the recursion structural.
Returns the accumulated items and the list of page numbers requested. -/
def eventsPageLoop (server : Nat → List α) : Nat → Nat → List α × List Nat
  | 0, _ => ([], [])
  | fuel + 1, page =>
    if page ≤ MAX_PAGES then
      let resp := server page
      if resp.length < PAGE_SIZE then (resp, [page])
      else
        let rest := eventsPageLoop server fuel (page + 1)
        (resp ++ rest.1, page :: rest.2)
    else ([], [])

/-- Page loop started at startPage with its exact iteration budget
MAX_PAGES + 1 - startPage. -/
def fetchEventsPaged (server : Nat → List α) (startPage : Nat) : List α × List Nat :=
  eventsPageLoop server (MAX_PAGES + 1 - startPage) startPage

/-- Pagination behaviour of apiService.fetchAllEvents (extension.ts lines
1576-1602): pages from 1. -/
def fetchAllEventsRun (server : Nat → List α) : List α × List Nat :=
  fetchEventsPaged server 1

/-- Pagination behaviour of apiService.fetchDeltaEvents (extension.ts lines
1611-1644): pages from 1 over the delta window. -/
def fetchDeltaEventsRun (server : Nat → List α) : List α × List Nat :=
  fetchEventsPaged server 1

/-- Pagination behaviour of apiService.fetchEventsRemainingPages
(extension.ts lines 1536-1566): pages from startPage over the first-page
window. -/
def fetchEventsRemainingPagesRun (server : Nat → List α) (startPage : Nat) :
    List α × List Nat :=
  fetchEventsPaged server startPage

/-! ### High-water mark and branch selection -/

/-- SELECT MAX(timestamp) over a list of TEXT values: SQLite compares TEXT
with binary collation, which agrees with the codepoint order of Lean
strings (UTF-8 byte order preserves codepoint order); the maximum of zero
rows is NULL. -/
def sqlMaxText : List String → Option String
  | [] => none
  | s :: rest =>
    match sqlMaxText rest with
    | none => some s
    | some m => some (max s m)

/-- apiService.getLatestEventTimestamp (extension.ts lines 1800-1817):
SELECT MAX(timestamp) FROM usage_events, null both for a missing result row
and for a NULL maximum, i.e. exactly when the table holds zero rows. -/
def getLatestEventTimestamp (t : List EventRow) : Option String :=
  sqlMaxText (t.map EventRow.timestamp)

/-- Branch taken by the refreshData command handler, with the delta fetch
window it passes on. -/
inductive SyncBranch where
  | initialSync : SyncBranch
  | deltaSync (startDate endDate : String) : SyncBranch
deriving DecidableEq, Repr

/-- Branch selection of refreshData (extension.ts lines 243-254) combined
with the window construction of fetchDeltaEvents (extension.ts lines
1623-1624): latest is null when forceInitialSync is set, else the stored
high-water mark; a null latest selects the initial sync, otherwise the
delta sync fetches the window from latest to String(Date.now()). -/
def selectSyncBranch (forceInitialSync : Bool) (t : List EventRow) (nowMs : Int) :
    SyncBranch :=
  let latest := if forceInitialSync then none else getLatestEventTimestamp t
  match latest with
  | none => .initialSync
  | some l => .deltaSync l (toString nowMs)

/-! ### Per-branch result handling of refreshData -/

/-- Settled results of the four parallel fetches of one refreshData branch
(events is the first-page fetch in the initial branch and the delta fetch in
the delta branch). -/
structure FetchResults where
  rA : Except ApiError (List ApiUsageEvent)
  rB : Except ApiError ApiUsageSummary
  rC : Except ApiError ApiAuthMe
  rE : Except ApiError ApiTeamsResponse

/-- Observable outcome of one branch run: whether the conditional API-D
team-detail fetch was issued, and the error re-thrown to the outer
refreshData handler (none when nothing was re-thrown). -/
structure SyncOutcome where
  detailFetched : Bool
  thrown : Option ApiError
deriving DecidableEq, Repr

/-- Result handling shared verbatim by the two refreshData branches
(extension.ts lines 261-411 for the initial sync and 509-649 for the delta
sync). In code order: the conditional API-D step, which on a successful
team-list with at least one team issues the detail fetch for teams[0].id and
on a successful team-list with zero teams purges team_members (C/D/E
failures are only logged and turned into a warning notification); Phase 2,
which saves each fulfilled result (events, summary, identity, team detail
with the teamIdForSave recomputation, team list) to the store; Phase 3,
which re-throws the events-fetch rejection reason after reporting, and
re-throws nothing when the events fetch succeeded. The detail argument
models the API-D fetch as a function of the team id. -/
def handleBranchResults (st : Store) (res : FetchResults)
    (detail : Int → Except ApiError ApiTeamResponse) (fetchedAt : String) :
    Store × SyncOutcome :=
  let stepD : Store × Option (Except ApiError ApiTeamResponse) :=
    match res.rE with
    | .error _ => (st, none)
    | .ok tr =>
      match tr.teams with
      | [] => (purgeTeamMembers st, none)
      | t0 :: _ => (st, some (detail t0.id))
  let st1 := stepD.1
  let resultD := stepD.2
  let st2 := match res.rA with
    | .ok evs => saveEventsToDbStore st1 evs fetchedAt
    | .error _ => st1
  let st3 := match res.rB with
    | .ok s => saveSummaryToDbStore st2 s fetchedAt
    | .error _ => st2
  let st4 := match res.rC with
    | .ok m => saveAuthMeToDbStore st3 m fetchedAt
    | .error _ => st3
  let st5 := match resultD with
    | some (.ok team) =>
      let teamIdForSave := match res.rE with
        | .ok tr => match tr.teams with
          | t0 :: _ => t0.id
          | [] => 0
        | .error _ => 0
      saveTeamToDbStore st4 team teamIdForSave fetchedAt
    | _ => st4
  let st6 := match res.rE with
    | .ok tr => saveTeamsToDbStore st5 tr fetchedAt
    | .error _ => st5
  let thrown := match res.rA with
    | .error e => some e
    | .ok _ => none
  (st6, ⟨resultD.isSome, thrown⟩)

/-- Result handling of the initial-sync branch (extension.ts lines 261-411);
its body is line-for-line the same as the delta branch handling. -/
def initialSyncHandleResults (st : Store) (res : FetchResults)
    (detail : Int → Except ApiError ApiTeamResponse) (fetchedAt : String) :
    Store × SyncOutcome :=
  handleBranchResults st res detail fetchedAt

/-- Result handling of the delta-sync branch (extension.ts lines 509-649). -/
def deltaSyncHandleResults (st : Store) (res : FetchResults)
    (detail : Int → Except ApiError ApiTeamResponse) (fetchedAt : String) :
    Store × SyncOutcome :=
  handleBranchResults st res detail fetchedAt

/-! ### Auxiliary notions used by the proofs -/

/-- Natural-key uniqueness invariant of the usage_events table: no two rows
share the (timestamp, model, owning_user) triple. -/
def nodupEventKeys (t : List EventRow) : Prop :=
  t.Pairwise (fun a b => rowKey a ≠ rowKey b)

/-- Per-row effect of running the whole UPDATE phase of one batch over a
single row: each event whose natural key matches rewrites the non-note
columns. -/
def eventRowUpdates (fetchedAt : String) (l : List ApiUsageEvent) (r : EventRow) :
    EventRow :=
  l.foldl (fun r e => if rowKey r = eventKey e then applyEventUpdate e fetchedAt r else r) r

/-- The last event of the batch whose natural key is k, if any. -/
def lastEventFor (k : String × String × String) (l : List ApiUsageEvent) :
    Option ApiUsageEvent :=
  l.foldl (fun acc e => if eventKey e = k then some e else acc) none

/-- Mock paginated server of the C5 scenario: exactly PAGE_SIZE items on
pages up to 3 and PAGE_SIZE - 1 items on every later page. -/
def shortPage4Server (page : Nat) : List Nat :=
  if page ≤ 3 then List.replicate PAGE_SIZE 0 else List.replicate (PAGE_SIZE - 1) 0

/-- Sample normalized event used by concrete instantiations. -/
def sampleEvent : ApiUsageEvent where
  timestamp := "1"
  model := "m"
  kind := "k"
  customSubscriptionName := none
  maxMode := none
  requestsCosts := none
  usageBasedCosts := 0
  isTokenBasedCall := false
  tokenUsage :=
    { inputTokens := none, outputTokens := none, cacheWriteTokens := none,
      cacheReadTokens := none, totalCents := none }
  owningUser := "u"
  owningTeam := ""
  cursorTokenFee := 0
  isChargeable := false
  isHeadless := false

/-- Empty database tables, as created by initialize on first startup. -/
def emptyTables : Tables where
  usage_events := []
  usage_summary := []
  auth_me := []
  team_members := []
  teams := []

/-- Store with empty tables in memory and on disk. -/
def emptyStore : Store where
  mem := emptyTables
  disk := emptyTables
  notifTouches := 0

/-! ## Theorems -/

/-- C3: acquireLock returns false exactly when a lock file exists whose
content parses to a valid startedAt date at most 120 seconds old; in every
other case (absent file, unparseable content, invalid date, or age strictly
above 120 seconds) it writes a fresh lock file with startedAt = now and the
current pid and returns true; in particular startedAt = now - 121s acquires
and overwrites, while startedAt = now - 30s is refused. -/
theorem acquireLock_staleness_spec :
    (∀ (read : LockFileRead) (nowMs pid : Int),
      (acquireLock read nowMs pid).1 = false ↔
        ∃ t, read = .validDate t ∧ nowMs - t ≤ 120 * 1000)
    ∧ (∀ (read : LockFileRead) (nowMs pid : Int),
      (acquireLock read nowMs pid).1 = true →
        (acquireLock read nowMs pid).2 = some (nowMs, pid))
    ∧ (∀ nowMs pid : Int,
      acquireLock (.validDate (nowMs - 121 * 1000)) nowMs pid = (true, some (nowMs, pid)))
    ∧ (∀ nowMs pid : Int,
      acquireLock (.validDate (nowMs - 30 * 1000)) nowMs pid = (false, none)) := by
  refine ⟨?_, ?_, ?_, ?_⟩
  · intro read nowMs pid
    cases read with
    | validDate t =>
      simp only [acquireLock]
      split
      next h =>
        simp only [STALE_LOCK_THRESHOLD_SEC] at h
        exact iff_of_true rfl ⟨t, rfl, by omega⟩
      next h =>
        simp only [STALE_LOCK_THRESHOLD_SEC] at h
        refine iff_of_false (by simp) ?_
        rintro ⟨t2, h1, h2⟩
        injection h1 with h3
        subst h3
        omega
    | absent => simp [acquireLock]
    | unparseable => simp [acquireLock]
    | invalidDate => simp [acquireLock]
  · intro read nowMs pid h
    cases read with
    | validDate t =>
      simp only [acquireLock] at h ⊢
      split at h
      next => simp at h
      next hc => rw [if_neg hc]
    | absent => rfl
    | unparseable => rfl
    | invalidDate => rfl
  · intro nowMs pid
    have h : ¬ nowMs - (nowMs - 121 * 1000) ≤ STALE_LOCK_THRESHOLD_SEC * 1000 := by
      simp only [STALE_LOCK_THRESHOLD_SEC]
      omega
    simp only [acquireLock]
    rw [if_neg h]
  · intro nowMs pid
    have h : nowMs - (nowMs - 30 * 1000) ≤ STALE_LOCK_THRESHOLD_SEC * 1000 := by
      simp only [STALE_LOCK_THRESHOLD_SEC]
      omega
    simp only [acquireLock]
    rw [if_pos h]

/-- C3 witness: a concrete acquisition with the file absent. -/
theorem acquireLock_staleness_spec_witness :
    (acquireLock .absent 1000 7).2 = some (1000, 7) :=
  acquireLock_staleness_spec.2.1 .absent 1000 7 (by decide)

/-- C10: releaseLock deletes the lock file whenever it exists and treats a
missing file as success, without reading the content, so it performs no pid
ownership check and no freshness check; hence a release issued from
deactivate by a process that never acquired the lock removes a lock that
another process just wrote and that is still fresh. -/
theorem releaseLock_unconditional_delete :
    (∀ startedAtMs pid : Int, releaseLock (some (startedAtMs, pid)) = none)
    ∧ releaseLock none = none
    ∧ (∀ nowMs otherPid : Int,
      acquireLock .absent nowMs otherPid = (true, some (nowMs, otherPid)))
    ∧ (∀ nowMs : Int, isLocked (.validDate nowMs) nowMs = true)
    ∧ (∀ nowMs otherPid : Int, deactivateLockEffect (some (nowMs, otherPid)) = none) := by
  refine ⟨fun _ _ => rfl, rfl, fun _ _ => rfl, ?_, fun _ _ => rfl⟩
  intro nowMs
  simp [isLocked, STALE_LOCK_THRESHOLD_SEC]

/-- The retry loop performs at most remaining + 1 invocations of the
wrapped operation. -/
theorem withRetryFrom_calls_le (f : Nat → Except ApiError α) :
    ∀ remaining attempt, (withRetryFrom f attempt remaining).calls ≤ remaining + 1 := by
  intro remaining
  induction remaining with
  | zero =>
    intro attempt
    unfold withRetryFrom
    cases h : f attempt <;> simp
  | succ n ih =>
    intro attempt
    unfold withRetryFrom
    cases h : f attempt with
    | ok v => simp
    | error e =>
      cases hr : isRetryable e
      · simp [hr]
      · simp only [hr, if_true]
        have := ih (attempt + 1)
        omega

/-- C4: the retry policy with MAX_RETRIES = 2 classifies ApiTimeoutError,
HTTP 408, 429 and 500-599, and the listed transient network codes as
retryable and nothing else; a retryable failure is retried at most twice
with backoff delays 300ms then 900ms and the last error is thrown when all
three attempts fail; a non-retryable failure propagates immediately from the
failing attempt with no delay; the first successful attempt returns its
value (so 500 on attempts 1 and 2 with success on attempt 3 returns the
success value). -/
theorem withRetry_policy :
    (isRetryable .timeout = true)
    ∧ (∀ (sc : Nat) (body : String), isRetryable (.http sc body) = true ↔
        sc = 408 ∨ sc = 429 ∨ (500 ≤ sc ∧ sc ≤ 599))
    ∧ (∀ code, isRetryable (.network code) = true ↔ code ∈ retryableCodes)
    ∧ (∀ sc, isRetryable (.unauthorized sc) = false)
    ∧ (∀ d, isRetryable (.parse d) = false)
    ∧ (isRetryable .tokenNotConfigured = false)
    ∧ (∀ (α : Type) (f : Nat → Except ApiError α) (v : α) (e0 e1 : ApiError),
        f 0 = .error e0 → isRetryable e0 = true →
        f 1 = .error e1 → isRetryable e1 = true →
        f 2 = .ok v →
        withRetry f MAX_RETRIES = ⟨.ok v, 3, [300, 900]⟩)
    ∧ (∀ (α : Type) (f : Nat → Except ApiError α) (e0 e1 e2 : ApiError),
        f 0 = .error e0 → isRetryable e0 = true →
        f 1 = .error e1 → isRetryable e1 = true →
        f 2 = .error e2 →
        withRetry f MAX_RETRIES = ⟨.error e2, 3, [300, 900]⟩)
    ∧ (∀ (α : Type) (f : Nat → Except ApiError α) (e : ApiError),
        f 0 = .error e → isRetryable e = false →
        withRetry f MAX_RETRIES = ⟨.error e, 1, []⟩)
    ∧ (∀ (α : Type) (f : Nat → Except ApiError α) (e0 e1 : ApiError),
        f 0 = .error e0 → isRetryable e0 = true →
        f 1 = .error e1 → isRetryable e1 = false →
        withRetry f MAX_RETRIES = ⟨.error e1, 2, [300]⟩)
    ∧ (∀ (α : Type) (f : Nat → Except ApiError α) (v : α),
        f 0 = .ok v → withRetry f MAX_RETRIES = ⟨.ok v, 1, []⟩)
    ∧ (∀ (α : Type) (f : Nat → Except ApiError α),
        (withRetry f MAX_RETRIES).calls ≤ MAX_RETRIES + 1) := by
  refine ⟨rfl, ?_, ?_, fun _ => rfl, fun _ => rfl, rfl, ?_, ?_, ?_, ?_, ?_, ?_⟩
  · intro sc body
    simp [isRetryable]
    omega
  · intro code
    simp [isRetryable]
  · intro α f v e0 e1 h0 hr0 h1 hr1 h2
    simp [withRetry, MAX_RETRIES, withRetryFrom, h0, h1, h2, hr0, hr1, retryDelayAt,
      RETRY_DELAYS]
  · intro α f e0 e1 e2 h0 hr0 h1 hr1 h2
    simp [withRetry, MAX_RETRIES, withRetryFrom, h0, h1, h2, hr0, hr1, retryDelayAt,
      RETRY_DELAYS]
  · intro α f e h0 hr
    simp [withRetry, MAX_RETRIES, withRetryFrom, h0, hr]
  · intro α f e0 e1 h0 hr0 h1 hr1
    simp [withRetry, MAX_RETRIES, withRetryFrom, h0, h1, hr0, hr1, retryDelayAt,
      RETRY_DELAYS]
  · intro α f v h0
    simp [withRetry, MAX_RETRIES, withRetryFrom, h0]
  · intro α f
    exact withRetryFrom_calls_le f MAX_RETRIES 0

/-- C4 witness: 500 on attempts 1 and 2, success on attempt 3. -/
theorem withRetry_policy_witness :
    withRetry
      (fun n => if n = 0 then .error (.http 500 "boom")
        else if n = 1 then .error (.http 503 "again") else .ok (42 : Nat))
      MAX_RETRIES = ⟨.ok 42, 3, [300, 900]⟩ :=
  withRetry_policy.2.2.2.2.2.2.1 Nat
    (fun n => if n = 0 then .error (.http 500 "boom")
      else if n = 1 then .error (.http 503 "again") else .ok (42 : Nat))
    42 (.http 500 "boom") (.http 503 "again") rfl (by decide) rfl (by decide) rfl

/-- Every page number the loop requests respects the MAX_PAGES ceiling. -/
theorem eventsPageLoop_pages_le (server : Nat → List α) :
    ∀ fuel page q, q ∈ (eventsPageLoop server fuel page).2 → q ≤ MAX_PAGES := by
  intro fuel
  induction fuel with
  | zero =>
    intro page q hq
    simp [eventsPageLoop] at hq
  | succ n ih =>
    intro page q hq
    unfold eventsPageLoop at hq
    by_cases hp : page ≤ MAX_PAGES
    · rw [if_pos hp] at hq
      by_cases hshort : (server page).length < PAGE_SIZE
      · rw [if_pos hshort] at hq
        simp at hq
        omega
      · rw [if_neg hshort] at hq
        simp at hq
        rcases hq with rfl | hmem
        · exact hp
        · exact ih (page + 1) q hmem
    · rw [if_neg hp] at hq
      simp at hq

/-- The loop requests exactly the consecutive pages from its start page to
the first short page m, given every earlier page in the window is full. -/
theorem eventsPageLoop_pages_consecutive (server : Nat → List α) :
    ∀ fuel page m, page ≤ m → m < page + fuel → m ≤ MAX_PAGES →
      (∀ q, page ≤ q → q < m → PAGE_SIZE ≤ (server q).length) →
      (server m).length < PAGE_SIZE →
      (eventsPageLoop server fuel page).2 = List.range' page (m - page + 1) := by
  intro fuel
  induction fuel with
  | zero =>
    intro page m h1 h2
    omega
  | succ n ih =>
    intro page m h1 h2 h3 hfull hshort
    have hp : page ≤ MAX_PAGES := le_trans h1 h3
    unfold eventsPageLoop
    rw [if_pos hp]
    by_cases hpm : page = m
    · subst hpm
      rw [if_pos hshort]
      simp [Nat.sub_self, List.range']
    · have hlt : page < m := lt_of_le_of_ne h1 hpm
      have hnotshort : ¬ (server page).length < PAGE_SIZE := by
        have := hfull page le_rfl hlt
        omega
      rw [if_neg hnotshort]
      have hrec : (eventsPageLoop server n (page + 1)).2
          = List.range' (page + 1) (m - (page + 1) + 1) := by
        refine ih (page + 1) m (by omega) (by omega) h3 ?_ hshort
        intro q hq1 hq2
        exact hfull q (by omega) hq2
      simp only [hrec]
      have hn : m - page + 1 = (m - (page + 1) + 1) + 1 := by omega
      rw [hn]
      simp [List.range'_succ]

/-- C5: every paginated events fetch (fetchDeltaEvents, fetchAllEvents,
fetchEventsRemainingPages) requests consecutive pages from its start page,
never requests a page above the MAX_PAGES = 100 ceiling, and stops
immediately after the first page whose item count is strictly below
PAGE_SIZE = 100; in the scenario with full pages 1-3 and a 99-item page 4
the delta fetch requests exactly pages 1, 2, 3, 4 and never a 5th page. -/
theorem pagination_termination_spec :
    (∀ (α : Type) (server : Nat → List α) (startPage q : Nat),
        q ∈ (fetchEventsRemainingPagesRun server startPage).2 → q ≤ MAX_PAGES)
    ∧ (∀ (α : Type) (server : Nat → List α) (q : Nat),
        q ∈ (fetchAllEventsRun server).2 → q ≤ MAX_PAGES)
    ∧ (∀ (α : Type) (server : Nat → List α) (q : Nat),
        q ∈ (fetchDeltaEventsRun server).2 → q ≤ MAX_PAGES)
    ∧ (∀ (α : Type) (server : Nat → List α) (startPage m : Nat),
        startPage ≤ m → m ≤ MAX_PAGES →
        (∀ q, startPage ≤ q → q < m → PAGE_SIZE ≤ (server q).length) →
        (server m).length < PAGE_SIZE →
        (fetchEventsRemainingPagesRun server startPage).2
          = List.range' startPage (m - startPage + 1))
    ∧ (fetchDeltaEventsRun shortPage4Server).2 = [1, 2, 3, 4]
    ∧ 5 ∉ (fetchDeltaEventsRun shortPage4Server).2 := by
  have hceil : ∀ (α : Type) (server : Nat → List α) (startPage q : Nat),
      q ∈ (fetchEventsPaged server startPage).2 → q ≤ MAX_PAGES := by
    intro α server startPage q hq
    exact eventsPageLoop_pages_le server _ startPage q hq
  have hconsec : ∀ (α : Type) (server : Nat → List α) (startPage m : Nat),
      startPage ≤ m → m ≤ MAX_PAGES →
      (∀ q, startPage ≤ q → q < m → PAGE_SIZE ≤ (server q).length) →
      (server m).length < PAGE_SIZE →
      (fetchEventsPaged server startPage).2 = List.range' startPage (m - startPage + 1) := by
    intro α server startPage m h1 h2 hfull hshort
    refine eventsPageLoop_pages_consecutive server _ startPage m h1 ?_ h2 hfull hshort
    omega
  have hscenario : (fetchDeltaEventsRun shortPage4Server).2 = [1, 2, 3, 4] := by
    have h4 := hconsec Nat shortPage4Server 1 4 (by omega) (by decide)
      (by
        intro q hq1 hq2
        interval_cases q <;> simp [shortPage4Server, PAGE_SIZE])
      (by simp [shortPage4Server, PAGE_SIZE])
    simpa [fetchDeltaEventsRun, List.range'] using h4
  refine ⟨fun α server sp q h => hceil α server sp q h,
    fun α server q h => hceil α server 1 q h,
    fun α server q h => hceil α server 1 q h,
    fun α server sp m h1 h2 h3 h4 => hconsec α server sp m h1 h2 h3 h4,
    hscenario, ?_⟩
  rw [hscenario]
  decide

/-- C5 witness: the consecutive-pages statement applied to the concrete
short-page-4 server starting at page 1. -/
theorem pagination_termination_spec_witness :
    (fetchEventsRemainingPagesRun shortPage4Server 1).2 = List.range' 1 4 :=
  pagination_termination_spec.2.2.2.1 Nat shortPage4Server 1 4 (by omega) (by decide)
    (by
      intro q hq1 hq2
      interval_cases q <;> simp [shortPage4Server, PAGE_SIZE])
    (by simp [shortPage4Server, PAGE_SIZE])

/-- The TEXT maximum is NULL exactly on the empty list. -/
theorem sqlMaxText_eq_none_iff (l : List String) : sqlMaxText l = none ↔ l = [] := by
  cases l with
  | nil => simp [sqlMaxText]
  | cons s rest =>
    simp only [sqlMaxText]
    cases sqlMaxText rest <;> simp

/-- The TEXT maximum is a member of the list and an upper bound of it. -/
theorem sqlMaxText_spec (l : List String) (m : String) (h : sqlMaxText l = some m) :
    m ∈ l ∧ ∀ s ∈ l, s ≤ m := by
  induction l generalizing m with
  | nil => simp [sqlMaxText] at h
  | cons s rest ih =>
    simp only [sqlMaxText] at h
    cases hr : sqlMaxText rest with
    | none =>
      rw [hr] at h
      injection h with h2
      subst h2
      have : rest = [] := (sqlMaxText_eq_none_iff rest).mp hr
      subst this
      simp
    | some m2 =>
      rw [hr] at h
      injection h with h2
      subst h2
      obtain ⟨hmem, hub⟩ := ih m2 hr
      constructor
      · rcases max_choice s m2 with hm | hm <;> rw [hm]
        · exact List.mem_cons_self s rest
        · exact List.mem_cons_of_mem s hmem
      · intro x hx
        rcases List.mem_cons.mp hx with rfl | hx2
        · exact le_max_left _ _
        · exact le_trans (hub x hx2) (le_max_right _ _)

/-- C7: getLatestEventTimestamp returns null exactly when usage_events holds
zero rows and otherwise the maximum stored timestamp string; refreshData
selects the initial sync exactly when forceInitialSync is set or that null
sentinel is returned, and otherwise selects the delta sync with the fetch
window from the returned high-water mark to now. -/
theorem latestTimestamp_branch_selection :
    (∀ t : List EventRow, getLatestEventTimestamp t = none ↔ t = [])
    ∧ (∀ (t : List EventRow) (m : String), getLatestEventTimestamp t = some m →
        m ∈ t.map EventRow.timestamp ∧ ∀ s ∈ t.map EventRow.timestamp, s ≤ m)
    ∧ (∀ (force : Bool) (t : List EventRow) (nowMs : Int),
        selectSyncBranch force t nowMs = .initialSync ↔ (force = true ∨ t = []))
    ∧ (∀ (t : List EventRow) (nowMs : Int) (m : String),
        getLatestEventTimestamp t = some m →
        selectSyncBranch false t nowMs = .deltaSync m (toString nowMs)) := by
  have hnone : ∀ t : List EventRow, getLatestEventTimestamp t = none ↔ t = [] := by
    intro t
    rw [getLatestEventTimestamp, sqlMaxText_eq_none_iff]
    simp
  refine ⟨hnone, ?_, ?_, ?_⟩
  · intro t m h
    exact sqlMaxText_spec _ m h
  · intro force t nowMs
    cases force with
    | true => simp [selectSyncBranch]
    | false =>
      simp only [selectSyncBranch, Bool.false_eq_true, if_false]
      cases hl : getLatestEventTimestamp t with
      | none =>
        exact iff_of_true rfl (Or.inr ((hnone t).mp hl))
      | some m =>
        refine iff_of_false (by simp) ?_
        rintro (hfalse | hempty)
        · exact hfalse.elim
        · rw [hempty] at hl
          simp [getLatestEventTimestamp, sqlMaxText] at hl
  · intro t nowMs m h
    simp [selectSyncBranch, h]

/-- The UPDATE statement never changes the natural-key columns. -/
theorem rowKey_applyEventUpdate (e : ApiUsageEvent) (fa : String) (r : EventRow) :
    rowKey (applyEventUpdate e fa r) = rowKey r := rfl

/-- The inserted row carries exactly the natural key of its event. -/
theorem rowKey_rowOfEvent (e : ApiUsageEvent) (fa : String) :
    rowKey (rowOfEvent e fa) = eventKey e := rfl

/-- Two successive UPDATEs by events leave only the later one visible. -/
theorem applyEventUpdate_absorb (e1 e2 : ApiUsageEvent) (fa1 fa2 : String) (r : EventRow) :
    applyEventUpdate e2 fa2 (applyEventUpdate e1 fa1 r) = applyEventUpdate e2 fa2 r := rfl

/-- The UPDATE statement commutes with setting the note column, which it
does not touch. -/
theorem applyEventUpdate_noteSet (e : ApiUsageEvent) (fa v : String) (r : EventRow) :
    applyEventUpdate e fa { r with note := v }
      = { applyEventUpdate e fa r with note := v } := rfl

/-- Key presence under a key-preserving row rewrite. -/
theorem hasEventKey_map_keyPreserving (f : EventRow → EventRow)
    (hf : ∀ r, rowKey (f r) = rowKey r) (t : List EventRow) (k : String × String × String) :
    hasEventKey (t.map f) k = hasEventKey t k := by
  unfold hasEventKey
  rw [List.any_map]
  congr 1
  funext r
  simp [Function.comp, hf r]

/-- The UPDATE phase of one event preserves key presence. -/
theorem hasEventKey_updateEventRows (t : List EventRow) (e : ApiUsageEvent) (fa : String)
    (k : String × String × String) :
    hasEventKey (updateEventRows t e fa) k = hasEventKey t k := by
  unfold updateEventRows
  apply hasEventKey_map_keyPreserving
  intro r
  by_cases h : rowKey r = eventKey e
  · rw [if_pos h, rowKey_applyEventUpdate]
  · rw [if_neg h]

/-- The note update preserves key presence. -/
theorem hasEventKey_updateNoteTable (t : List EventRow) (ts mdl user v : String)
    (k : String × String × String) :
    hasEventKey (updateNoteTable t ts mdl user v) k = hasEventKey t k := by
  unfold updateNoteTable
  apply hasEventKey_map_keyPreserving
  intro r
  by_cases h : rowKey r = (ts, mdl, user)
  · rw [if_pos h]
    rfl
  · rw [if_neg h]

/-- Key presence over an appended table. -/
theorem hasEventKey_append (t1 t2 : List EventRow) (k : String × String × String) :
    hasEventKey (t1 ++ t2) k = (hasEventKey t1 k || hasEventKey t2 k) := by
  unfold hasEventKey
  rw [List.any_append]

/-- After INSERT OR IGNORE of an event, its key is present. -/
theorem hasEventKey_insertOrIgnore_self (t : List EventRow) (e : ApiUsageEvent)
    (fa : String) :
    hasEventKey (insertOrIgnoreEvent t e fa) (eventKey e) = true := by
  unfold insertOrIgnoreEvent
  split
  next h => exact h
  next h =>
    rw [hasEventKey_append]
    simp [hasEventKey, rowKey_rowOfEvent]

/-- INSERT OR IGNORE only grows the key set. -/
theorem hasEventKey_insertOrIgnore_mono (t : List EventRow) (e : ApiUsageEvent)
    (fa : String) (k : String × String × String) (h : hasEventKey t k = true) :
    hasEventKey (insertOrIgnoreEvent t e fa) k = true := by
  unfold insertOrIgnoreEvent
  split
  · exact h
  · rw [hasEventKey_append, h]
    rfl

/-- After one insert/update step of the batch loop, the key of the processed
event is present. -/
theorem hasEventKey_saveEventsStep_self (fa : String) (t : List EventRow)
    (e : ApiUsageEvent) :
    hasEventKey (saveEventsStep fa t e) (eventKey e) = true := by
  unfold saveEventsStep
  rw [hasEventKey_updateEventRows]
  exact hasEventKey_insertOrIgnore_self t e fa

/-- One batch-loop step only grows the key set. -/
theorem hasEventKey_saveEventsStep_mono (fa : String) (t : List EventRow)
    (e : ApiUsageEvent) (k : String × String × String) (h : hasEventKey t k = true) :
    hasEventKey (saveEventsStep fa t e) k = true := by
  unfold saveEventsStep
  rw [hasEventKey_updateEventRows]
  exact hasEventKey_insertOrIgnore_mono t e fa k h

/-- The whole batch loop only grows the key set. -/
theorem hasEventKey_foldl_mono (fa : String) (l : List ApiUsageEvent) :
    ∀ (t : List EventRow) (k : String × String × String), hasEventKey t k = true →
      hasEventKey (List.foldl (saveEventsStep fa) t l) k = true := by
  induction l with
  | nil => intro t k h; exact h
  | cons e rest ih =>
    intro t k h
    simp only [List.foldl_cons]
    exact ih (saveEventsStep fa t e) k (hasEventKey_saveEventsStep_mono fa t e k h)

/-- After the batch loop, the key of every batch event is present. -/
theorem hasEventKey_foldl_save (fa : String) :
    ∀ (l : List ApiUsageEvent) (t : List EventRow) (e : ApiUsageEvent), e ∈ l →
      hasEventKey (List.foldl (saveEventsStep fa) t l) (eventKey e) = true := by
  intro l
  induction l with
  | nil => intro t e he; simp at he
  | cons e2 rest ih =>
    intro t e he
    simp only [List.foldl_cons]
    rcases List.mem_cons.mp he with rfl | hmem
    · exact hasEventKey_foldl_mono fa rest (saveEventsStep fa t e) (eventKey e)
        (hasEventKey_saveEventsStep_self fa t e)
    · exact ih (saveEventsStep fa t e2) e hmem

/-- The UPDATE phase distributes over appended tables. -/
theorem updateEventRows_append (t1 t2 : List EventRow) (e : ApiUsageEvent)
    (fa : String) :
    updateEventRows (t1 ++ t2) e fa = updateEventRows t1 e fa ++ updateEventRows t2 e fa := by
  unfold updateEventRows
  exact List.map_append _ _ _

/-- An UPDATE by an event whose key is already present commutes past later
INSERT OR IGNOREs: the inserts never add a row with that key, and key
presence is unchanged by the update. -/
theorem ins_upd_comm (fa : String) (e : ApiUsageEvent) :
    ∀ (l : List ApiUsageEvent) (t : List EventRow),
      hasEventKey t (eventKey e) = true →
      List.foldl (fun t2 e2 => insertOrIgnoreEvent t2 e2 fa) (updateEventRows t e fa) l
        = updateEventRows (List.foldl (fun t2 e2 => insertOrIgnoreEvent t2 e2 fa) t l) e fa := by
  intro l
  induction l with
  | nil => intro t ht; rfl
  | cons e2 rest ih =>
    intro t ht
    simp only [List.foldl_cons]
    by_cases h2 : hasEventKey t (eventKey e2) = true
    · have hup : hasEventKey (updateEventRows t e fa) (eventKey e2) = true := by
        rw [hasEventKey_updateEventRows]
        exact h2
      rw [show insertOrIgnoreEvent (updateEventRows t e fa) e2 fa = updateEventRows t e fa
        from by unfold insertOrIgnoreEvent; rw [if_pos hup]]
      rw [show insertOrIgnoreEvent t e2 fa = t
        from by unfold insertOrIgnoreEvent; rw [if_pos h2]]
      exact ih t ht
    · have h2f : hasEventKey t (eventKey e2) = false := by
        cases hb : hasEventKey t (eventKey e2)
        · rfl
        · exact absurd hb h2
      have hupf : ¬ hasEventKey (updateEventRows t e fa) (eventKey e2) = true := by
        rw [hasEventKey_updateEventRows, h2f]
        simp
      have hkeyne : ¬ rowKey (rowOfEvent e2 fa) = eventKey e := by
        rw [rowKey_rowOfEvent]
        intro hcontra
        rw [hcontra] at h2f
        rw [ht] at h2f
        exact Bool.noConfusion h2f
      rw [show insertOrIgnoreEvent (updateEventRows t e fa) e2 fa
          = updateEventRows t e fa ++ [rowOfEvent e2 fa]
        from by unfold insertOrIgnoreEvent; rw [if_neg hupf]]
      rw [show insertOrIgnoreEvent t e2 fa = t ++ [rowOfEvent e2 fa]
        from by unfold insertOrIgnoreEvent; rw [if_neg (by rw [h2f]; simp)]]
      have hsingle : updateEventRows [rowOfEvent e2 fa] e fa = [rowOfEvent e2 fa] := by
        unfold updateEventRows
        simp [if_neg hkeyne]
      rw [show updateEventRows t e fa ++ [rowOfEvent e2 fa]
          = updateEventRows (t ++ [rowOfEvent e2 fa]) e fa
        from by rw [updateEventRows_append, hsingle]]
      refine ih (t ++ [rowOfEvent e2 fa]) ?_
      rw [hasEventKey_append, ht]
      rfl

/-- Phase separation of the batch loop: interleaved insert/update pairs are
equivalent to all INSERT OR IGNOREs followed by all UPDATEs. -/
theorem foldl_step_phases (fa : String) :
    ∀ (l : List ApiUsageEvent) (t : List EventRow),
      List.foldl (saveEventsStep fa) t l
        = List.foldl (fun t2 e => updateEventRows t2 e fa)
            (List.foldl (fun t2 e => insertOrIgnoreEvent t2 e fa) t l) l := by
  intro l
  induction l with
  | nil => intro t; rfl
  | cons e rest ih =>
    intro t
    simp only [List.foldl_cons]
    rw [show saveEventsStep fa t e = updateEventRows (insertOrIgnoreEvent t e fa) e fa
      from rfl]
    rw [ih (updateEventRows (insertOrIgnoreEvent t e fa) e fa)]
    rw [ins_upd_comm fa e rest (insertOrIgnoreEvent t e fa)
      (hasEventKey_insertOrIgnore_self t e fa)]

/-- The UPDATE phase of a whole batch acts row-wise. -/
theorem foldl_upd_eq_map (fa : String) :
    ∀ (l : List ApiUsageEvent) (t : List EventRow),
      List.foldl (fun t2 e => updateEventRows t2 e fa) t l
        = t.map (eventRowUpdates fa l) := by
  intro l
  induction l with
  | nil =>
    intro t
    have h : eventRowUpdates fa [] = id := rfl
    simp [h]
  | cons e rest ih =>
    intro t
    simp only [List.foldl_cons]
    rw [ih (updateEventRows t e fa)]
    unfold updateEventRows
    rw [List.map_map]
    congr 1

/-- Folding the last-match accumulator from an arbitrary seed. -/
theorem lastEventFor_foldl_seed (k : String × String × String) :
    ∀ (l : List ApiUsageEvent) (acc : Option ApiUsageEvent),
      List.foldl (fun acc2 e => if eventKey e = k then some e else acc2) acc l
        = match lastEventFor k l with
          | none => acc
          | some e => some e := by
  intro l
  induction l with
  | nil => intro acc; rfl
  | cons e rest ih =>
    intro acc
    simp only [List.foldl_cons, lastEventFor]
    by_cases h : eventKey e = k
    · rw [if_pos h]
      rw [ih (some e)]
      simp only [List.foldl_cons, if_pos h]
      rw [ih (some e)]
      cases lastEventFor k rest <;> rfl
    · rw [if_neg h]
      rw [ih acc]
      simp only [List.foldl_cons, if_neg h]
      rw [ih none]
      cases lastEventFor k rest <;> rfl

/-- Unfolding the last match over a cons cell. -/
theorem lastEventFor_cons (k : String × String × String) (e : ApiUsageEvent)
    (l : List ApiUsageEvent) :
    lastEventFor k (e :: l)
      = match lastEventFor k l with
        | none => if eventKey e = k then some e else none
        | some e2 => some e2 := by
  show List.foldl (fun acc2 e2 => if eventKey e2 = k then some e2 else acc2)
      (if eventKey e = k then some e else none) l = _
  rw [lastEventFor_foldl_seed]

/-- Per-row characterization of the whole UPDATE phase: only the last batch
event whose key matches the row is visible. -/
theorem eventRowUpdates_eq_lastEventFor (fa : String) :
    ∀ (l : List ApiUsageEvent) (r : EventRow),
      eventRowUpdates fa l r
        = match lastEventFor (rowKey r) l with
          | none => r
          | some e => applyEventUpdate e fa r := by
  intro l
  induction l with
  | nil => intro r; rfl
  | cons e rest ih =>
    intro r
    rw [show eventRowUpdates fa (e :: rest) r
        = eventRowUpdates fa rest
            (if rowKey r = eventKey e then applyEventUpdate e fa r else r) from rfl]
    rw [lastEventFor_cons]
    by_cases h : rowKey r = eventKey e
    · rw [if_pos h, ih (applyEventUpdate e fa r), rowKey_applyEventUpdate]
      rw [if_pos (by rw [h])]
      cases lastEventFor (rowKey r) rest with
      | none => rfl
      | some e2 => exact applyEventUpdate_absorb e e2 fa fa r
    · rw [if_neg h, ih r]
      rw [if_neg (fun hc => h (by rw [hc]))]
      cases lastEventFor (rowKey r) rest <;> rfl

/-- The UPDATE phase preserves the natural key of a row. -/
theorem rowKey_eventRowUpdates (fa : String) (l : List ApiUsageEvent) (r : EventRow) :
    rowKey (eventRowUpdates fa l r) = rowKey r := by
  rw [eventRowUpdates_eq_lastEventFor]
  cases lastEventFor (rowKey r) l
  · rfl
  · exact rowKey_applyEventUpdate _ fa r

/-- The whole UPDATE phase is idempotent on a row. -/
theorem eventRowUpdates_idem (fa : String) (l : List ApiUsageEvent) (r : EventRow) :
    eventRowUpdates fa l (eventRowUpdates fa l r) = eventRowUpdates fa l r := by
  cases h : lastEventFor (rowKey r) l with
  | none =>
    have hx : eventRowUpdates fa l r = r := by
      rw [eventRowUpdates_eq_lastEventFor, h]
    rw [hx, hx]
  | some e =>
    have hx : eventRowUpdates fa l r = applyEventUpdate e fa r := by
      rw [eventRowUpdates_eq_lastEventFor, h]
    rw [hx]
    rw [eventRowUpdates_eq_lastEventFor, rowKey_applyEventUpdate, h]
    exact applyEventUpdate_absorb e e fa fa r

/-- When every batch key is already present, the INSERT phase is a no-op. -/
theorem foldl_ins_noop (fa : String) :
    ∀ (l : List ApiUsageEvent) (t : List EventRow),
      (∀ e ∈ l, hasEventKey t (eventKey e) = true) →
      List.foldl (fun t2 e => insertOrIgnoreEvent t2 e fa) t l = t := by
  intro l
  induction l with
  | nil => intro t _; rfl
  | cons e rest ih =>
    intro t h
    simp only [List.foldl_cons]
    rw [show insertOrIgnoreEvent t e fa = t
      from by unfold insertOrIgnoreEvent; rw [if_pos (h e (List.mem_cons_self e rest))]]
    exact ih t (fun e2 he2 => h e2 (List.mem_cons_of_mem e he2))

/-- Every row of a saved table is a fixed point of the batch UPDATE phase. -/
theorem save_rows_fixed (fa : String) (l : List ApiUsageEvent) (t : List EventRow)
    (r : EventRow) (hr : r ∈ List.foldl (saveEventsStep fa) t l) :
    eventRowUpdates fa l r = r := by
  rw [foldl_step_phases, foldl_upd_eq_map] at hr
  obtain ⟨r0, _, rfl⟩ := List.mem_map.mp hr
  exact eventRowUpdates_idem fa l r0

/-- Replaying the batch loop over a table that already contains every batch
key and whose rows are fixed points of the UPDATE phase changes nothing. -/
theorem foldl_save_absorbed (fa : String) (l : List ApiUsageEvent) (s : List EventRow)
    (hkeys : ∀ e ∈ l, hasEventKey s (eventKey e) = true)
    (hfix : ∀ r ∈ s, eventRowUpdates fa l r = r) :
    List.foldl (saveEventsStep fa) s l = s := by
  rw [foldl_step_phases, foldl_ins_noop fa l s hkeys, foldl_upd_eq_map]
  calc s.map (eventRowUpdates fa l) = s.map id := List.map_congr_left hfix
    _ = s := List.map_id s

/-- C1: with the ingestion timestamp held fixed, applying the same batch
twice leaves the usage_events table exactly as applying it once; and if a
note is set (by the natural-key note update) between the two applications,
the second application leaves the whole table, that note included,
unchanged, while the API-derived columns it rewrites already carry the
values of the batch. -/
theorem saveEventsToDb_idempotent_note_preserving :
    ∀ (t : List EventRow) (events : List ApiUsageEvent) (fa ts mdl user v : String),
      saveEventsToDb (saveEventsToDb t events fa) events fa = saveEventsToDb t events fa
      ∧ saveEventsToDb (updateNoteTable (saveEventsToDb t events fa) ts mdl user v)
          events fa
        = updateNoteTable (saveEventsToDb t events fa) ts mdl user v := by
  intro t events fa ts mdl user v
  by_cases hemp : events.isEmpty
  · constructor <;> simp [saveEventsToDb, hemp]
  · have hform : ∀ s : List EventRow,
        saveEventsToDb s events fa = List.foldl (saveEventsStep fa) s events := by
      intro s
      simp [saveEventsToDb, hemp]
    have hkeys : ∀ e ∈ events,
        hasEventKey (List.foldl (saveEventsStep fa) t events) (eventKey e) = true :=
      fun e he => hasEventKey_foldl_save fa events t e he
    have hfix : ∀ r ∈ List.foldl (saveEventsStep fa) t events,
        eventRowUpdates fa events r = r :=
      fun r hr => save_rows_fixed fa events t r hr
    constructor
    · rw [hform t, hform (List.foldl (saveEventsStep fa) t events)]
      exact foldl_save_absorbed fa events _ hkeys hfix
    · rw [hform t,
        hform (updateNoteTable (List.foldl (saveEventsStep fa) t events) ts mdl user v)]
      refine foldl_save_absorbed fa events _ ?_ ?_
      · intro e he
        rw [hasEventKey_updateNoteTable]
        exact hkeys e he
      · intro r hr
        unfold updateNoteTable at hr
        obtain ⟨r0, hr0, rfl⟩ := List.mem_map.mp hr
        by_cases hk : rowKey r0 = (ts, mdl, user)
        · rw [if_pos hk]
          have hfix0 := hfix r0 hr0
          rw [eventRowUpdates_eq_lastEventFor] at hfix0 ⊢
          rw [show rowKey { r0 with note := v } = rowKey r0 from rfl]
          cases h : lastEventFor (rowKey r0) events with
          | none => rfl
          | some e =>
            rw [h] at hfix0
            have hfix1 : applyEventUpdate e fa r0 = r0 := hfix0
            show applyEventUpdate e fa { r0 with note := v } = { r0 with note := v }
            rw [applyEventUpdate_noteSet, hfix1]
        · rw [if_neg hk]
          exact hfix r0 hr0

/-- A key-preserving row rewrite preserves natural-key uniqueness. -/
theorem nodupEventKeys_map (f : EventRow → EventRow)
    (hf : ∀ r, rowKey (f r) = rowKey r) (t : List EventRow) (h : nodupEventKeys t) :
    nodupEventKeys (t.map f) := by
  unfold nodupEventKeys at h ⊢
  rw [List.pairwise_map]
  refine h.imp ?_
  intro a b hab
  rw [hf a, hf b]
  exact hab

/-- INSERT OR IGNORE preserves natural-key uniqueness. -/
theorem nodupEventKeys_insertOrIgnore (t : List EventRow) (e : ApiUsageEvent)
    (fa : String) (h : nodupEventKeys t) :
    nodupEventKeys (insertOrIgnoreEvent t e fa) := by
  unfold insertOrIgnoreEvent
  split
  next => exact h
  next habs =>
    unfold nodupEventKeys at h ⊢
    rw [List.pairwise_append]
    refine ⟨h, List.pairwise_singleton _ _, ?_⟩
    intro a ha b hb
    rw [List.mem_singleton.mp hb, rowKey_rowOfEvent]
    intro hcontra
    have : hasEventKey t (eventKey e) = true := by
      unfold hasEventKey
      rw [List.any_eq_true]
      exact ⟨a, ha, by simp [hcontra]⟩
    simp [this] at habs

/-- One batch-loop step preserves natural-key uniqueness. -/
theorem nodupEventKeys_saveEventsStep (fa : String) (t : List EventRow)
    (e : ApiUsageEvent) (h : nodupEventKeys t) :
    nodupEventKeys (saveEventsStep fa t e) := by
  unfold saveEventsStep updateEventRows
  refine nodupEventKeys_map _ ?_ _ (nodupEventKeys_insertOrIgnore t e fa h)
  intro r
  by_cases hk : rowKey r = eventKey e
  · rw [if_pos hk, rowKey_applyEventUpdate]
  · rw [if_neg hk]

/-- The whole batch loop preserves natural-key uniqueness. -/
theorem nodupEventKeys_foldl_save (fa : String) :
    ∀ (l : List ApiUsageEvent) (t : List EventRow), nodupEventKeys t →
      nodupEventKeys (List.foldl (saveEventsStep fa) t l) := by
  intro l
  induction l with
  | nil => intro t h; exact h
  | cons e rest ih =>
    intro t h
    simp only [List.foldl_cons]
    exact ih (saveEventsStep fa t e) (nodupEventKeys_saveEventsStep fa t e h)

/-- C2: natural-key uniqueness of usage_events (UNIQUE(timestamp, model,
owning_user)) holds of the freshly created empty table and is preserved by
every table operation: the saveEventsToDb batch upsert, the note update, the
retention delete, and the usage_based_costs migration of initialize. -/
theorem usageEvents_naturalKey_unique :
    nodupEventKeys []
    ∧ (∀ (t : List EventRow) (events : List ApiUsageEvent) (fa : String),
        nodupEventKeys t → nodupEventKeys (saveEventsToDb t events fa))
    ∧ (∀ (t : List EventRow) (ts mdl user v : String),
        nodupEventKeys t → nodupEventKeys (updateNoteTable t ts mdl user v))
    ∧ (∀ (t : List EventRow) (threshold : String),
        nodupEventKeys t → nodupEventKeys (deleteEventsOlderThan t threshold))
    ∧ (∀ (t : List EventRow) (f : EventRow → Int),
        nodupEventKeys t → nodupEventKeys (migrateUsageBasedCostsTable f t)) := by
  refine ⟨List.Pairwise.nil, ?_, ?_, ?_, ?_⟩
  · intro t events fa h
    unfold saveEventsToDb
    split
    next => exact h
    next => exact nodupEventKeys_foldl_save fa events t h
  · intro t ts mdl user v h
    unfold updateNoteTable
    refine nodupEventKeys_map _ ?_ _ h
    intro r
    by_cases hk : rowKey r = (ts, mdl, user)
    · rw [if_pos hk]
      rfl
    · rw [if_neg hk]
  · intro t threshold h
    unfold deleteEventsOlderThan
    exact List.Pairwise.sublist (List.filter_sublist t) h
  · intro t f h
    unfold migrateUsageBasedCostsTable
    refine nodupEventKeys_map _ ?_ _ h
    intro r
    rfl

/-- C2 witness: the invariant instantiated on a one-event batch over the
empty table. -/
theorem usageEvents_naturalKey_unique_witness :
    nodupEventKeys (saveEventsToDb [] [sampleEvent] "2026-01-01") :=
  usageEvents_naturalKey_unique.2.1 [] [sampleEvent] "2026-01-01" List.Pairwise.nil

/-- A failure oracle that hits a statement inside the batch makes the
transaction body fail. -/
theorem txGo_fail (fa : String) :
    ∀ (l : List ApiUsageEvent) (t : List EventRow) (idx i : Nat),
      idx ≤ i → i < idx + 2 * l.length →
      ∃ msg, txGo fa (some i) l t idx = .error msg := by
  intro l
  induction l with
  | nil =>
    intro t idx i h1 h2
    simp at h2
    omega
  | cons e rest ih =>
    intro t idx i h1 h2
    by_cases hi0 : i = idx
    · refine ⟨"INSERT OR IGNORE failed", ?_⟩
      unfold txGo
      rw [if_pos (by rw [hi0])]
    · by_cases hi1 : i = idx + 1
      · refine ⟨"UPDATE failed", ?_⟩
        unfold txGo
        rw [if_neg (by simp; omega), if_pos (by rw [hi1])]
      · have h3 : idx + 2 ≤ i := by omega
        have h4 : i < (idx + 2) + 2 * rest.length := by
          simp [List.length_cons] at h2
          omega
        obtain ⟨msg, hmsg⟩ := ih (updateEventRows (insertOrIgnoreEvent t e fa) e fa)
          (idx + 2) i h3 h4
        refine ⟨msg, ?_⟩
        unfold txGo
        rw [if_neg (by simp; omega), if_neg (by simp; omega)]
        exact hmsg

/-- Without a failing statement the transaction body computes exactly the
batch-loop table. -/
theorem txGo_none (fa : String) :
    ∀ (l : List ApiUsageEvent) (t : List EventRow) (idx : Nat),
      txGo fa none l t idx = .ok (List.foldl (saveEventsStep fa) t l) := by
  intro l
  induction l with
  | nil => intro t idx; rfl
  | cons e rest ih =>
    intro t idx
    unfold txGo
    rw [if_neg (by simp), if_neg (by simp)]
    simp only [List.foldl_cons]
    exact ih (updateEventRows (insertOrIgnoreEvent t e fa) e fa) (idx + 2)

/-- C6: the batch runs inside one transaction; when any statement of the
batch fails, the transaction is rolled back so the in-memory table equals
the reloaded on-disk table, the on-disk file and the notification file are
untouched (persist is never reached), and the error is re-thrown; when every
statement succeeds, the loop result is committed and persisted with one
notification touch. -/
theorem saveEventsToDb_transaction_rollback :
    (∀ (st : Store) (events : List ApiUsageEvent) (fa : String) (i : Nat),
      i < 2 * events.length →
        (saveEventsToDbRun st events fa (some i)).1.isSome = true
        ∧ (saveEventsToDbRun st events fa (some i)).2.mem.usage_events
            = st.disk.usage_events
        ∧ (saveEventsToDbRun st events fa (some i)).2.disk = st.disk
        ∧ (saveEventsToDbRun st events fa (some i)).2.notifTouches = st.notifTouches)
    ∧ (∀ (st : Store) (events : List ApiUsageEvent) (fa : String),
        (saveEventsToDbRun st events fa none).1 = none)
    ∧ (∀ (st : Store) (events : List ApiUsageEvent) (fa : String), events ≠ [] →
        (saveEventsToDbRun st events fa none).2.mem.usage_events
          = saveEventsToDb st.disk.usage_events events fa
        ∧ (saveEventsToDbRun st events fa none).2.disk.usage_events
          = saveEventsToDb st.disk.usage_events events fa
        ∧ (saveEventsToDbRun st events fa none).2.notifTouches = st.notifTouches + 1) := by
  refine ⟨?_, ?_, ?_⟩
  · intro st events fa i hi
    have hne : ¬ events.isEmpty = true := by
      cases events
      · simp at hi
      · simp
    obtain ⟨msg, hmsg⟩ := txGo_fail fa events (reloadStore st).mem.usage_events 0 i
      (Nat.zero_le i) (by omega)
    simp only [saveEventsToDbRun, if_neg hne]
    rw [hmsg]
    exact ⟨rfl, rfl, rfl, rfl⟩
  · intro st events fa
    by_cases hne : events.isEmpty = true
    · simp only [saveEventsToDbRun, if_pos hne]
    · simp only [saveEventsToDbRun, if_neg hne]
      rw [txGo_none]
  · intro st events fa hne
    have hne2 : ¬ events.isEmpty = true := by
      cases events
      · exact absurd rfl hne
      · simp
    simp only [saveEventsToDbRun, if_neg hne2]
    rw [txGo_none]
    have hsave : saveEventsToDb st.disk.usage_events events fa
        = List.foldl (saveEventsStep fa) st.disk.usage_events events := by
      unfold saveEventsToDb
      rw [if_neg hne2]
    exact ⟨by rw [hsave]; rfl, by rw [hsave]; rfl, rfl⟩

/-- C6 witness: the rollback statement instantiated with one event and a
failure of its first statement. -/
theorem saveEventsToDb_transaction_rollback_witness :
    (saveEventsToDbRun emptyStore [sampleEvent] "2026-01-01" (some 0)).1.isSome = true
    ∧ (saveEventsToDbRun emptyStore [sampleEvent] "2026-01-01" (some 0)).2.disk
        = emptyStore.disk :=
  ⟨(saveEventsToDb_transaction_rollback.1 emptyStore [sampleEvent] "2026-01-01" 0
      (by decide)).1,
    (saveEventsToDb_transaction_rollback.1 emptyStore [sampleEvent] "2026-01-01" 0
      (by decide)).2.2.1⟩

/-- C8: whenever the team-list fetch succeeds with zero teams, the
team-detail fetch is skipped and every team_members row is deleted with the
deletion persisted to disk, in both the initial-sync and the delta-sync
branch, whatever the other three fetches returned; no previously stored
membership row survives such a sync. -/
theorem teamList_zeroTeams_purges_membership :
    ∀ (st : Store) (rA : Except ApiError (List ApiUsageEvent))
      (rB : Except ApiError ApiUsageSummary) (rC : Except ApiError ApiAuthMe)
      (detail : Int → Except ApiError ApiTeamResponse) (fa : String),
      ((initialSyncHandleResults st ⟨rA, rB, rC, .ok ⟨[]⟩⟩ detail fa).2.detailFetched
          = false
        ∧ (initialSyncHandleResults st ⟨rA, rB, rC, .ok ⟨[]⟩⟩ detail fa).1.mem.team_members
          = []
        ∧ (initialSyncHandleResults st ⟨rA, rB, rC, .ok ⟨[]⟩⟩ detail fa).1.disk.team_members
          = [])
      ∧ ((deltaSyncHandleResults st ⟨rA, rB, rC, .ok ⟨[]⟩⟩ detail fa).2.detailFetched
          = false
        ∧ (deltaSyncHandleResults st ⟨rA, rB, rC, .ok ⟨[]⟩⟩ detail fa).1.mem.team_members
          = []
        ∧ (deltaSyncHandleResults st ⟨rA, rB, rC, .ok ⟨[]⟩⟩ detail fa).1.disk.team_members
          = []) := by
  intro st rA rB rC detail fa
  have hA : ∀ (s : Store) (evs : List ApiUsageEvent),
      s.mem.team_members = [] ∧ s.disk.team_members = [] →
      (saveEventsToDbStore s evs fa).mem.team_members = []
        ∧ (saveEventsToDbStore s evs fa).disk.team_members = [] := by
    intro s evs hs
    unfold saveEventsToDbStore
    split
    · exact hs
    · exact ⟨hs.2, hs.2⟩
  have hB : ∀ (s : Store) (x : ApiUsageSummary),
      s.mem.team_members = [] ∧ s.disk.team_members = [] →
      (saveSummaryToDbStore s x fa).mem.team_members = []
        ∧ (saveSummaryToDbStore s x fa).disk.team_members = [] :=
    fun s x hs => ⟨hs.2, hs.2⟩
  have hC : ∀ (s : Store) (m : ApiAuthMe),
      s.mem.team_members = [] ∧ s.disk.team_members = [] →
      (saveAuthMeToDbStore s m fa).mem.team_members = []
        ∧ (saveAuthMeToDbStore s m fa).disk.team_members = [] :=
    fun s m hs => ⟨hs.2, hs.2⟩
  have hE : ∀ (s : Store) (tr : ApiTeamsResponse),
      s.mem.team_members = [] ∧ s.disk.team_members = [] →
      (saveTeamsToDbStore s tr fa).mem.team_members = []
        ∧ (saveTeamsToDbStore s tr fa).disk.team_members = [] :=
    fun s tr hs => ⟨hs.2, hs.2⟩
  have h1 : (purgeTeamMembers st).mem.team_members = []
      ∧ (purgeTeamMembers st).disk.team_members = [] := ⟨rfl, rfl⟩
  have main : (handleBranchResults st ⟨rA, rB, rC, .ok ⟨[]⟩⟩ detail fa).2.detailFetched
        = false
      ∧ (handleBranchResults st ⟨rA, rB, rC, .ok ⟨[]⟩⟩ detail fa).1.mem.team_members = []
      ∧ (handleBranchResults st ⟨rA, rB, rC, .ok ⟨[]⟩⟩ detail fa).1.disk.team_members
        = [] := by
    refine ⟨rfl, ?_⟩
    cases rA with
    | ok evs =>
      cases rB with
      | ok xB =>
        cases rC with
        | ok mC => exact hE _ _ (hC _ _ (hB _ _ (hA _ _ h1)))
        | error eC => exact hE _ _ (hB _ _ (hA _ _ h1))
      | error eB =>
        cases rC with
        | ok mC => exact hE _ _ (hC _ _ (hA _ _ h1))
        | error eC => exact hE _ _ (hA _ _ h1)
    | error eA =>
      cases rB with
      | ok xB =>
        cases rC with
        | ok mC => exact hE _ _ (hC _ _ (hB _ _ h1))
        | error eC => exact hE _ _ (hB _ _ h1)
      | error eB =>
        cases rC with
        | ok mC => exact hE _ _ (hC _ _ h1)
        | error eC => exact hE _ _ h1
  exact ⟨main, main⟩

/-- C9: within one refreshData run, in both branches, the events-fetch
failure is the only fetch failure re-thrown to the outer handler (its
rejection reason is re-thrown verbatim, and nothing is thrown when the
events fetch succeeded, whatever happened to summary, identity, team detail
or team list); and every fulfilled fetch is still saved to the store: the
fetched summary row is appended, the identity row replaces auth_me, the
team list replaces teams, and a non-empty fetched events batch is upserted
into usage_events. -/
theorem eventsFailure_only_aborts_sync :
    (∀ (st : Store) (res : FetchResults) (detail : Int → Except ApiError ApiTeamResponse)
        (fa : String) (e : ApiError), res.rA = .error e →
      (initialSyncHandleResults st res detail fa).2.thrown = some e
      ∧ (deltaSyncHandleResults st res detail fa).2.thrown = some e)
    ∧ (∀ (st : Store) (res : FetchResults) (detail : Int → Except ApiError ApiTeamResponse)
        (fa : String) (evs : List ApiUsageEvent), res.rA = .ok evs →
      (initialSyncHandleResults st res detail fa).2.thrown = none
      ∧ (deltaSyncHandleResults st res detail fa).2.thrown = none)
    ∧ (∀ (st : Store) (res : FetchResults) (detail : Int → Except ApiError ApiTeamResponse)
        (fa : String) (x : ApiUsageSummary), res.rB = .ok x →
      summaryRowOf x fa ∈ (initialSyncHandleResults st res detail fa).1.mem.usage_summary
      ∧ summaryRowOf x fa ∈ (initialSyncHandleResults st res detail fa).1.disk.usage_summary
      ∧ summaryRowOf x fa ∈ (deltaSyncHandleResults st res detail fa).1.mem.usage_summary
      ∧ summaryRowOf x fa ∈ (deltaSyncHandleResults st res detail fa).1.disk.usage_summary)
    ∧ (∀ (st : Store) (res : FetchResults) (detail : Int → Except ApiError ApiTeamResponse)
        (fa : String) (m : ApiAuthMe), res.rC = .ok m →
      (initialSyncHandleResults st res detail fa).1.mem.auth_me = [authMeRowOf m fa]
      ∧ (initialSyncHandleResults st res detail fa).1.disk.auth_me = [authMeRowOf m fa]
      ∧ (deltaSyncHandleResults st res detail fa).1.mem.auth_me = [authMeRowOf m fa]
      ∧ (deltaSyncHandleResults st res detail fa).1.disk.auth_me = [authMeRowOf m fa])
    ∧ (∀ (st : Store) (res : FetchResults) (detail : Int → Except ApiError ApiTeamResponse)
        (fa : String) (tr : ApiTeamsResponse), res.rE = .ok tr →
      (initialSyncHandleResults st res detail fa).1.mem.teams
        = tr.teams.map (teamRowOf tr fa)
      ∧ (initialSyncHandleResults st res detail fa).1.disk.teams
        = tr.teams.map (teamRowOf tr fa)
      ∧ (deltaSyncHandleResults st res detail fa).1.mem.teams
        = tr.teams.map (teamRowOf tr fa)
      ∧ (deltaSyncHandleResults st res detail fa).1.disk.teams
        = tr.teams.map (teamRowOf tr fa))
    ∧ (∀ (st : Store) (res : FetchResults) (detail : Int → Except ApiError ApiTeamResponse)
        (fa : String) (evs : List ApiUsageEvent), res.rA = .ok evs → evs ≠ [] →
      (initialSyncHandleResults st res detail fa).1.mem.usage_events
        = saveEventsToDb st.disk.usage_events evs fa
      ∧ (deltaSyncHandleResults st res detail fa).1.mem.usage_events
        = saveEventsToDb st.disk.usage_events evs fa) := by
  have main_err : ∀ (st : Store) (res : FetchResults)
      (detail : Int → Except ApiError ApiTeamResponse) (fa : String) (e : ApiError),
      res.rA = .error e → (handleBranchResults st res detail fa).2.thrown = some e := by
    intro st res detail fa e h
    obtain ⟨rA, rB, rC, rE⟩ := res
    simp only at h
    subst h
    rfl
  have main_ok : ∀ (st : Store) (res : FetchResults)
      (detail : Int → Except ApiError ApiTeamResponse) (fa : String)
      (evs : List ApiUsageEvent),
      res.rA = .ok evs → (handleBranchResults st res detail fa).2.thrown = none := by
    intro st res detail fa evs h
    obtain ⟨rA, rB, rC, rE⟩ := res
    simp only at h
    subst h
    rfl
  have main_summary : ∀ (st : Store) (res : FetchResults)
      (detail : Int → Except ApiError ApiTeamResponse) (fa : String)
      (x : ApiUsageSummary), res.rB = .ok x →
      summaryRowOf x fa ∈ (handleBranchResults st res detail fa).1.mem.usage_summary
      ∧ summaryRowOf x fa ∈ (handleBranchResults st res detail fa).1.disk.usage_summary := by
    intro st res detail fa x h
    obtain ⟨rA, rB, rC, rE⟩ := res
    simp only at h
    subst h
    simp only [handleBranchResults]
    cases rC with
    | error eC =>
      rcases rE with eE | ⟨_ | ⟨t0, rest⟩⟩
      · simp [saveEventsToDbStore, saveSummaryToDbStore, saveAuthMeToDbStore,
          saveTeamToDbStore, saveTeamsToDbStore, purgeTeamMembers, reloadStore,
          persistStore, List.mem_append]
      · simp [saveEventsToDbStore, saveSummaryToDbStore, saveAuthMeToDbStore,
          saveTeamToDbStore, saveTeamsToDbStore, purgeTeamMembers, reloadStore,
          persistStore, List.mem_append]
      · rcases hD : detail t0.id with eD | team <;>
          simp [hD, saveEventsToDbStore, saveSummaryToDbStore, saveAuthMeToDbStore,
            saveTeamToDbStore, saveTeamsToDbStore, purgeTeamMembers, reloadStore,
            persistStore, List.mem_append]
    | ok mC =>
      rcases rE with eE | ⟨_ | ⟨t0, rest⟩⟩
      · simp [saveEventsToDbStore, saveSummaryToDbStore, saveAuthMeToDbStore,
          saveTeamToDbStore, saveTeamsToDbStore, purgeTeamMembers, reloadStore,
          persistStore, List.mem_append]
      · simp [saveEventsToDbStore, saveSummaryToDbStore, saveAuthMeToDbStore,
          saveTeamToDbStore, saveTeamsToDbStore, purgeTeamMembers, reloadStore,
          persistStore, List.mem_append]
      · rcases hD : detail t0.id with eD | team <;>
          simp [hD, saveEventsToDbStore, saveSummaryToDbStore, saveAuthMeToDbStore,
            saveTeamToDbStore, saveTeamsToDbStore, purgeTeamMembers, reloadStore,
            persistStore, List.mem_append]
  have main_authMe : ∀ (st : Store) (res : FetchResults)
      (detail : Int → Except ApiError ApiTeamResponse) (fa : String) (m : ApiAuthMe),
      res.rC = .ok m →
      (handleBranchResults st res detail fa).1.mem.auth_me = [authMeRowOf m fa]
      ∧ (handleBranchResults st res detail fa).1.disk.auth_me = [authMeRowOf m fa] := by
    intro st res detail fa m h
    obtain ⟨rA, rB, rC, rE⟩ := res
    simp only at h
    subst h
    simp only [handleBranchResults]
    rcases rE with eE | ⟨_ | ⟨t0, rest⟩⟩
    · simp [saveEventsToDbStore, saveSummaryToDbStore, saveAuthMeToDbStore,
        saveTeamToDbStore, saveTeamsToDbStore, purgeTeamMembers, reloadStore,
        persistStore]
    · simp [saveEventsToDbStore, saveSummaryToDbStore, saveAuthMeToDbStore,
        saveTeamToDbStore, saveTeamsToDbStore, purgeTeamMembers, reloadStore,
        persistStore]
    · rcases hD : detail t0.id with eD | team <;>
        simp [hD, saveEventsToDbStore, saveSummaryToDbStore, saveAuthMeToDbStore,
          saveTeamToDbStore, saveTeamsToDbStore, purgeTeamMembers, reloadStore,
          persistStore]
  have main_teams : ∀ (st : Store) (res : FetchResults)
      (detail : Int → Except ApiError ApiTeamResponse) (fa : String)
      (tr : ApiTeamsResponse), res.rE = .ok tr →
      (handleBranchResults st res detail fa).1.mem.teams = tr.teams.map (teamRowOf tr fa)
      ∧ (handleBranchResults st res detail fa).1.disk.teams
        = tr.teams.map (teamRowOf tr fa) := by
    intro st res detail fa tr h
    obtain ⟨rA, rB, rC, rE⟩ := res
    simp only at h
    subst h
    exact ⟨rfl, rfl⟩
  have main_events : ∀ (st : Store) (res : FetchResults)
      (detail : Int → Except ApiError ApiTeamResponse) (fa : String)
      (evs : List ApiUsageEvent), res.rA = .ok evs → evs ≠ [] →
      (handleBranchResults st res detail fa).1.mem.usage_events
        = saveEventsToDb st.disk.usage_events evs fa := by
    intro st res detail fa evs h hne
    have hg : ¬ evs.isEmpty = true := by
      cases evs
      · exact absurd rfl hne
      · simp
    obtain ⟨rA, rB, rC, rE⟩ := res
    simp only at h
    subst h
    simp only [handleBranchResults]
    rcases rE with eE | ⟨_ | ⟨t0, rest⟩⟩
    · cases rB <;> cases rC <;>
        simp [saveEventsToDbStore, saveEventsToDb, hg, saveSummaryToDbStore,
          saveAuthMeToDbStore, saveTeamToDbStore, saveTeamsToDbStore,
          purgeTeamMembers, reloadStore, persistStore]
    · cases rB <;> cases rC <;>
        simp [saveEventsToDbStore, saveEventsToDb, hg, saveSummaryToDbStore,
          saveAuthMeToDbStore, saveTeamToDbStore, saveTeamsToDbStore,
          purgeTeamMembers, reloadStore, persistStore]
    · rcases hD : detail t0.id with eD | team <;> cases rB <;> cases rC <;>
        simp [hD, saveEventsToDbStore, saveEventsToDb, hg, saveSummaryToDbStore,
          saveAuthMeToDbStore, saveTeamToDbStore, saveTeamsToDbStore,
          purgeTeamMembers, reloadStore, persistStore]
  refine ⟨?_, ?_, ?_, ?_, ?_, ?_⟩
  · intro st res detail fa e h
    exact ⟨main_err st res detail fa e h, main_err st res detail fa e h⟩
  · intro st res detail fa evs h
    exact ⟨main_ok st res detail fa evs h, main_ok st res detail fa evs h⟩
  · intro st res detail fa x h
    exact ⟨(main_summary st res detail fa x h).1, (main_summary st res detail fa x h).2,
      (main_summary st res detail fa x h).1, (main_summary st res detail fa x h).2⟩
  · intro st res detail fa m h
    exact ⟨(main_authMe st res detail fa m h).1, (main_authMe st res detail fa m h).2,
      (main_authMe st res detail fa m h).1, (main_authMe st res detail fa m h).2⟩
  · intro st res detail fa tr h
    exact ⟨(main_teams st res detail fa tr h).1, (main_teams st res detail fa tr h).2,
      (main_teams st res detail fa tr h).1, (main_teams st res detail fa tr h).2⟩
  · intro st res detail fa evs h hne
    exact ⟨main_events st res detail fa evs h hne, main_events st res detail fa evs h hne⟩

/-- C9 witness: a run whose events fetch failed with a 500 while the other
fetches succeeded re-throws exactly that error. -/
theorem eventsFailure_only_aborts_sync_witness :
    (initialSyncHandleResults emptyStore
      ⟨.error (.http 500 "boom"),
        .error (.parse "bad"), .error (.parse "bad2"), .ok ⟨[]⟩⟩
      (fun _ => .error (.parse "none")) "2026-01-01").2.thrown
      = some (.http 500 "boom") :=
  (eventsFailure_only_aborts_sync.1 emptyStore
    ⟨.error (.http 500 "boom"),
      .error (.parse "bad"), .error (.parse "bad2"), .ok ⟨[]⟩⟩
    (fun _ => .error (.parse "none")) "2026-01-01" (.http 500 "boom") rfl).1

/-- C7 witness: a one-row table selects the delta sync with its timestamp as
the window start. -/
theorem latestTimestamp_branch_selection_witness :
    selectSyncBranch false
      [{ timestamp := "1700000000000", model := "m", kind := "k", max_mode := none,
         requests_costs := none, usage_based_costs := 0, is_token_based_call := 0,
         input_tokens := 0, output_tokens := 0, cache_write_tokens := 0,
         cache_read_tokens := 0, total_cents := 0, owning_user := "u", owning_team := "",
         cursor_token_fee := 0, is_chargeable := 0, is_headless := 0, raw_json := "",
         fetched_at := "2026-01-01", note := "" }] 5
      = .deltaSync "1700000000000" (toString (5 : Int)) :=
  latestTimestamp_branch_selection.2.2.2
    [{ timestamp := "1700000000000", model := "m", kind := "k", max_mode := none,
       requests_costs := none, usage_based_costs := 0, is_token_based_call := 0,
       input_tokens := 0, output_tokens := 0, cache_write_tokens := 0,
       cache_read_tokens := 0, total_cents := 0, owning_user := "u", owning_team := "",
       cursor_token_fee := 0, is_chargeable := 0, is_headless := 0, raw_json := "",
       fetched_at := "2026-01-01", note := "" }] 5 "1700000000000" rfl

end CursorEconomizer
